import Mathlib

/-!
# gomacro: the multiplication specializer and the statement executor

A shallow embedding of `fast_interpreter/binary_mul.go` (`Comp.Mul`) and of
`interpreter/statement.go` (the statement dispatcher), with theorems about them.

Conventions of the embedding:

* Go's fixed-width integers are `Int` (signed) and `Nat` (unsigned); every
  native product is wrapped explicitly to its width.
* The native floating-point and complex types, and their products, are fields
  of a `Platform`, as are the widths of `int`, `uint` and `uintptr`.
* A Go closure `func(*Env) T` reads and may update the environment it is
  handed, so it is a function `Env → T × Env`: the value and the environment
  as the call leaves it.
* A Go panic is an explicit outcome, never a missing result.
-/

namespace Gomacro

/-! ## Machine arithmetic -/

/-- Two's complement reduction of `n` to `w` bits: the representative of
`n mod 2^w` in `[-2^(w-1), 2^(w-1))`. -/
def wrapSigned (w : Nat) (n : Int) : Int :=
  let r := n % 2 ^ w
  if r < 2 ^ (w - 1) then r else r - 2 ^ w

/-- Reduction of `n` to `w` bits, unsigned. -/
def wrapUnsigned (w : Nat) (n : Nat) : Nat :=
  n % 2 ^ w

/-- The platform a Go program is built for: the width of `int`/`uint`, the
width of `uintptr`, and the native floating-point and complex types with their
products and their comparison with an integer. -/
structure Platform where
  intBits : Nat
  intBits_pos : 0 < intBits
  ptrBits : Nat
  float32 : Type
  float64 : Type
  complex64 : Type
  complex128 : Type
  mulFloat32 : float32 → float32 → float32
  mulFloat64 : float64 → float64 → float64
  mulComplex64 : complex64 → complex64 → complex64
  mulComplex128 : complex128 → complex128 → complex128
  /-- Whether a `float32` equals the integer `n` (Go's `v == float32(n)`). -/
  eqFloat32 : float32 → Int → Bool
  /-- Whether a `float64` equals the integer `n`. -/
  eqFloat64 : float64 → Int → Bool
  /-- Whether a `complex64` equals the integer `n` (`v == complex(n, 0)`). -/
  eqComplex64 : complex64 → Int → Bool
  /-- Whether a `complex128` equals the integer `n`. -/
  eqComplex128 : complex128 → Int → Bool

namespace Platform

variable (P : Platform)

/-- Go's `*` on `int`. -/
def mulInt (a b : Int) : Int := wrapSigned P.intBits (a * b)
/-- Go's `*` on `uint`. -/
def mulUint (a b : Nat) : Nat := wrapUnsigned P.intBits (a * b)
/-- Go's `*` on `uintptr`. -/
def mulUintptr (a b : Nat) : Nat := wrapUnsigned P.ptrBits (a * b)

end Platform

/-- Go's `*` on `int8`. -/
def mulInt8 (a b : Int) : Int := wrapSigned 8 (a * b)
/-- Go's `*` on `int16`. -/
def mulInt16 (a b : Int) : Int := wrapSigned 16 (a * b)
/-- Go's `*` on `int32`. -/
def mulInt32 (a b : Int) : Int := wrapSigned 32 (a * b)
/-- Go's `*` on `int64`. -/
def mulInt64 (a b : Int) : Int := wrapSigned 64 (a * b)
/-- Go's `*` on `uint8`. -/
def mulUint8 (a b : Nat) : Nat := wrapUnsigned 8 (a * b)
/-- Go's `*` on `uint16`. -/
def mulUint16 (a b : Nat) : Nat := wrapUnsigned 16 (a * b)
/-- Go's `*` on `uint32`. -/
def mulUint32 (a b : Nat) : Nat := wrapUnsigned 32 (a * b)
/-- Go's `*` on `uint64`. -/
def mulUint64 (a b : Nat) : Nat := wrapUnsigned 64 (a * b)

/-! ## `reflect.Kind`, `reflect.Type`, `go/token` -/

/-- The kinds of `reflect.Kind`. -/
inductive Kind where
  | Invalid | Bool
  | Int | Int8 | Int16 | Int32 | Int64
  | Uint | Uint8 | Uint16 | Uint32 | Uint64 | Uintptr
  | Float32 | Float64 | Complex64 | Complex128
  | Array | Chan | Func | Interface | Map | Ptr | Slice | String | Struct
  | UnsafePointer
  deriving DecidableEq, Repr

/-- A `reflect.Type`, as far as the code looks at it: a name and a kind. -/
structure RType where
  name : String
  Kind : Kind
  deriving DecidableEq, Repr

/-- The tokens of `go/token` that the two files name or can be handed. -/
inductive Token where
  | ILLEGAL
  | ADD | SUB | MUL | QUO | REM
  | ADD_ASSIGN | SUB_ASSIGN | MUL_ASSIGN | QUO_ASSIGN | REM_ASSIGN
  | ARROW | INC | DEC | ASSIGN | DEFINE
  | BREAK | CONTINUE | FALLTHROUGH | GOTO
  deriving DecidableEq, Repr

/-! ## Package `fast_interpreter`: values, closures, `Expr` -/

section Fast

variable (P : Platform) (Env : Type)

/-- A closure `func(*Env) T`. -/
abbrev Fn (T : Type) : Type := Env → T × Env

/-- The dynamic values that an `I` (Go's `interface{}`) holds in an `Expr`:
`nil`, a constant of some type, or an evaluation closure of some type. The
fifteen numeric types are the ones `Comp.Mul` dispatches on; `bool` and
`string` stand for every other type. -/
inductive I where
  | nil
  | int (v : Int) | int8 (v : Int) | int16 (v : Int) | int32 (v : Int) | int64 (v : Int)
  | uint (v : Nat) | uint8 (v : Nat) | uint16 (v : Nat) | uint32 (v : Nat) | uint64 (v : Nat)
  | uintptr (v : Nat)
  | float32 (v : P.float32) | float64 (v : P.float64)
  | complex64 (v : P.complex64) | complex128 (v : P.complex128)
  | bool (v : Bool) | string (v : String)
  | funcInt (f : Fn Env Int) | funcInt8 (f : Fn Env Int) | funcInt16 (f : Fn Env Int)
  | funcInt32 (f : Fn Env Int) | funcInt64 (f : Fn Env Int)
  | funcUint (f : Fn Env Nat) | funcUint8 (f : Fn Env Nat) | funcUint16 (f : Fn Env Nat)
  | funcUint32 (f : Fn Env Nat) | funcUint64 (f : Fn Env Nat) | funcUintptr (f : Fn Env Nat)
  | funcFloat32 (f : Fn Env P.float32) | funcFloat64 (f : Fn Env P.float64)
  | funcComplex64 (f : Fn Env P.complex64) | funcComplex128 (f : Fn Env P.complex128)
  | funcBool (f : Fn Env Bool) | funcString (f : Fn Env String)

/-- The fields of `Expr` that `Comp.Mul` reads: the static type (`Type`), the constant
value (`nil` when the expression is not a constant) and the evaluation closure
(`nil` when there is none). -/
structure Expr where
  Typ : RType
  Value : I P Env
  Fun : I P Env

/-- A Go panic raised inside `Comp.Mul`. -/
inductive Fault where
  /-- A type assertion `v.(T)` on a value whose dynamic type is not `T`. -/
  | typeAssertion (wanted : String)
  /-- A panic raised by a function `Comp.Mul` calls. -/
  | raised (msg : String)
  deriving DecidableEq, Repr

variable {P} {Env}

/-- Whether an `I` is the nil interface value. -/
def I.isNil : I P Env → Bool
  | .nil => true
  | _ => false

/-- Modelled from the spec: `Expr.Const`, whose body is not in the translated
files. The spec's `IsConstant` is "consistent with" the presence of the
constant value: an `Expr` is a constant exactly when its `Value` is present. -/
def Expr.Const (e : Expr P Env) : Bool :=
  !e.Value.isNil

/-- Modelled from the spec: `ExprFun`, whose body is not in the translated
files. It builds the `Expr` of a compiled, non-constant expression: the given
static type, the given closure, and no constant value. -/
def ExprFun (t : RType) (f : I P Env) : Expr P Env :=
  { Typ := t, Value := .nil, Fun := f }

/-- Modelled from the spec: the category of a kind, used by `isCategory`, whose
body is not in the translated files. The spec names four numeric categories,
"signed integer, unsigned integer, floating point, complex"; the source names
them by their widest kind (`r.Int`, `r.Uint`, `r.Float64`, `r.Complex128`).
Every other kind is a category of its own. -/
def KindToCategory : Kind → Kind
  | .Int | .Int8 | .Int16 | .Int32 | .Int64 => .Int
  | .Uint | .Uint8 | .Uint16 | .Uint32 | .Uint64 | .Uintptr => .Uint
  | .Float32 | .Float64 => .Float64
  | .Complex64 | .Complex128 => .Complex128
  | k => k

/-- Modelled from the spec: `isCategory(k, categories...)`, whose body is not in
the translated files: whether the category of `k` is one of `categories`. -/
def isCategory (k : Kind) (categories : List Kind) : Bool :=
  categories.contains (KindToCategory k)

/-- Modelled from the spec: `isLiteralNumber(v, n)`, whose body is not in the
translated files. The spec's identity shortcut applies when "the constant
operand equals the multiplicative identity", which the source writes
`isLiteralNumber(v, 1)`: the constant is a number, of any of the fifteen
numeric types, and equals `n`. -/
def isLiteralNumber : I P Env → Int → Bool
  | .int v, n => v == n
  | .int8 v, n => v == n
  | .int16 v, n => v == n
  | .int32 v, n => v == n
  | .int64 v, n => v == n
  | .uint v, n => (v : Int) == n
  | .uint8 v, n => (v : Int) == n
  | .uint16 v, n => (v : Int) == n
  | .uint32 v, n => (v : Int) == n
  | .uint64 v, n => (v : Int) == n
  | .uintptr v, n => (v : Int) == n
  | .float32 v, n => P.eqFloat32 v n
  | .float64 v, n => P.eqFloat64 v n
  | .complex64 v, n => P.eqComplex64 v n
  | .complex128 v, n => P.eqComplex128 v n
  | _, _ => false

/-- The functions of package `fast_interpreter` that `Comp.Mul` calls and whose
bodies are not in the translated files. They are parameters of the embedding.

* `toSameFuncType(op, xe, ye)` unifies the two operands in place; it returns
  nothing, so its effect is the pair of operands as it leaves them, and it may
  panic.
* `c.invalidBinaryExpr(op, xe, ye)` produces the invalid-expression marker;
  by the spec it is "a compile-time marker value, never a runtime fault". -/
structure Deps (P : Platform) (Env : Type) where
  toSameFuncType : Token → Expr P Env → Expr P Env → Except Fault (Expr P Env × Expr P Env)
  invalidBinaryExpr : Token → Expr P Env → Expr P Env → Expr P Env

/-! ### Type assertions `v.(T)`: the value when the dynamic type is `T`, a panic otherwise -/

/-- The assertion `v.(int)`. -/
def I.assertInt : I P Env → Except Fault Int
  | .int v => .ok v
  | _ => .error (.typeAssertion "int")

/-- The assertion `v.(int8)`. -/
def I.assertInt8 : I P Env → Except Fault Int
  | .int8 v => .ok v
  | _ => .error (.typeAssertion "int8")

/-- The assertion `v.(int16)`. -/
def I.assertInt16 : I P Env → Except Fault Int
  | .int16 v => .ok v
  | _ => .error (.typeAssertion "int16")

/-- The assertion `v.(int32)`. -/
def I.assertInt32 : I P Env → Except Fault Int
  | .int32 v => .ok v
  | _ => .error (.typeAssertion "int32")

/-- The assertion `v.(int64)`. -/
def I.assertInt64 : I P Env → Except Fault Int
  | .int64 v => .ok v
  | _ => .error (.typeAssertion "int64")

/-- The assertion `v.(uint)`. -/
def I.assertUint : I P Env → Except Fault Nat
  | .uint v => .ok v
  | _ => .error (.typeAssertion "uint")

/-- The assertion `v.(uint8)`. -/
def I.assertUint8 : I P Env → Except Fault Nat
  | .uint8 v => .ok v
  | _ => .error (.typeAssertion "uint8")

/-- The assertion `v.(uint16)`. -/
def I.assertUint16 : I P Env → Except Fault Nat
  | .uint16 v => .ok v
  | _ => .error (.typeAssertion "uint16")

/-- The assertion `v.(uint32)`. -/
def I.assertUint32 : I P Env → Except Fault Nat
  | .uint32 v => .ok v
  | _ => .error (.typeAssertion "uint32")

/-- The assertion `v.(uint64)`. -/
def I.assertUint64 : I P Env → Except Fault Nat
  | .uint64 v => .ok v
  | _ => .error (.typeAssertion "uint64")

/-- The assertion `v.(uintptr)`. -/
def I.assertUintptr : I P Env → Except Fault Nat
  | .uintptr v => .ok v
  | _ => .error (.typeAssertion "uintptr")

/-- The assertion `v.(float32)`. -/
def I.assertFloat32 : I P Env → Except Fault P.float32
  | .float32 v => .ok v
  | _ => .error (.typeAssertion "float32")

/-- The assertion `v.(float64)`. -/
def I.assertFloat64 : I P Env → Except Fault P.float64
  | .float64 v => .ok v
  | _ => .error (.typeAssertion "float64")

/-- The assertion `v.(complex64)`. -/
def I.assertComplex64 : I P Env → Except Fault P.complex64
  | .complex64 v => .ok v
  | _ => .error (.typeAssertion "complex64")

/-- The assertion `v.(complex128)`. -/
def I.assertComplex128 : I P Env → Except Fault P.complex128
  | .complex128 v => .ok v
  | _ => .error (.typeAssertion "complex128")

/-- The assertion `v.(func(*Env) int)`. -/
def I.assertFuncInt : I P Env → Except Fault (Fn Env Int)
  | .funcInt f => .ok f
  | _ => .error (.typeAssertion "func(*Env) int")

/-- The assertion `v.(func(*Env) int8)`. -/
def I.assertFuncInt8 : I P Env → Except Fault (Fn Env Int)
  | .funcInt8 f => .ok f
  | _ => .error (.typeAssertion "func(*Env) int8")

/-- The assertion `v.(func(*Env) int16)`. -/
def I.assertFuncInt16 : I P Env → Except Fault (Fn Env Int)
  | .funcInt16 f => .ok f
  | _ => .error (.typeAssertion "func(*Env) int16")

/-- The assertion `v.(func(*Env) int32)`. -/
def I.assertFuncInt32 : I P Env → Except Fault (Fn Env Int)
  | .funcInt32 f => .ok f
  | _ => .error (.typeAssertion "func(*Env) int32")

/-- The assertion `v.(func(*Env) int64)`. -/
def I.assertFuncInt64 : I P Env → Except Fault (Fn Env Int)
  | .funcInt64 f => .ok f
  | _ => .error (.typeAssertion "func(*Env) int64")

/-- The assertion `v.(func(*Env) uint)`. -/
def I.assertFuncUint : I P Env → Except Fault (Fn Env Nat)
  | .funcUint f => .ok f
  | _ => .error (.typeAssertion "func(*Env) uint")

/-- The assertion `v.(func(*Env) uint8)`. -/
def I.assertFuncUint8 : I P Env → Except Fault (Fn Env Nat)
  | .funcUint8 f => .ok f
  | _ => .error (.typeAssertion "func(*Env) uint8")

/-- The assertion `v.(func(*Env) uint16)`. -/
def I.assertFuncUint16 : I P Env → Except Fault (Fn Env Nat)
  | .funcUint16 f => .ok f
  | _ => .error (.typeAssertion "func(*Env) uint16")

/-- The assertion `v.(func(*Env) uint32)`. -/
def I.assertFuncUint32 : I P Env → Except Fault (Fn Env Nat)
  | .funcUint32 f => .ok f
  | _ => .error (.typeAssertion "func(*Env) uint32")

/-- The assertion `v.(func(*Env) uint64)`. -/
def I.assertFuncUint64 : I P Env → Except Fault (Fn Env Nat)
  | .funcUint64 f => .ok f
  | _ => .error (.typeAssertion "func(*Env) uint64")

/-- The assertion `v.(func(*Env) uintptr)`. -/
def I.assertFuncUintptr : I P Env → Except Fault (Fn Env Nat)
  | .funcUintptr f => .ok f
  | _ => .error (.typeAssertion "func(*Env) uintptr")

/-- The assertion `v.(func(*Env) float32)`. -/
def I.assertFuncFloat32 : I P Env → Except Fault (Fn Env P.float32)
  | .funcFloat32 f => .ok f
  | _ => .error (.typeAssertion "func(*Env) float32")

/-- The assertion `v.(func(*Env) float64)`. -/
def I.assertFuncFloat64 : I P Env → Except Fault (Fn Env P.float64)
  | .funcFloat64 f => .ok f
  | _ => .error (.typeAssertion "func(*Env) float64")

/-- The assertion `v.(func(*Env) complex64)`. -/
def I.assertFuncComplex64 : I P Env → Except Fault (Fn Env P.complex64)
  | .funcComplex64 f => .ok f
  | _ => .error (.typeAssertion "func(*Env) complex64")

/-- The assertion `v.(func(*Env) complex128)`. -/
def I.assertFuncComplex128 : I P Env → Except Fault (Fn Env P.complex128)
  | .funcComplex128 f => .ok f
  | _ => .error (.typeAssertion "func(*Env) complex128")

/-- `Comp.Mul` (binary_mul.go:32-294). The three outer branches are the
source's `xc == yc`, `yc` and the final `else`; each inner `match` is the
source's type switch, whose cases assert the other operand's dynamic type
(a failed assertion panics) and build the closure, and whose `default`
returns `c.invalidBinaryExpr(op, xe, ye)`. The closing
`return ExprFun(xe.Type, fun)` is written in each case. -/
def Comp.Mul (D : Deps P Env) (op : Token) (xe ye : Expr P Env) :
    Except Fault (Expr P Env) :=
  let xc := xe.Const
  let yc := ye.Const
  match D.toSameFuncType op xe ye with
  | .error p => .error p
  | .ok (xe, ye) =>
    if !isCategory xe.Typ.Kind [Kind.Int, Kind.Uint, Kind.Float64, Kind.Complex128] then
      .ok (D.invalidBinaryExpr op xe ye)
    else if xc == yc then
      let x := xe.Fun
      let y := ye.Fun
      match x with
      | .funcInt x =>
        (y.assertFuncInt).map fun y => ExprFun xe.Typ (.funcInt fun env =>
          let a := x env; let b := y a.2; (P.mulInt a.1 b.1, b.2))
      | .funcInt8 x =>
        (y.assertFuncInt8).map fun y => ExprFun xe.Typ (.funcInt8 fun env =>
          let a := x env; let b := y a.2; (mulInt8 a.1 b.1, b.2))
      | .funcInt16 x =>
        (y.assertFuncInt16).map fun y => ExprFun xe.Typ (.funcInt16 fun env =>
          let a := x env; let b := y a.2; (mulInt16 a.1 b.1, b.2))
      | .funcInt32 x =>
        (y.assertFuncInt32).map fun y => ExprFun xe.Typ (.funcInt32 fun env =>
          let a := x env; let b := y a.2; (mulInt32 a.1 b.1, b.2))
      | .funcInt64 x =>
        (y.assertFuncInt64).map fun y => ExprFun xe.Typ (.funcInt64 fun env =>
          let a := x env; let b := y a.2; (mulInt64 a.1 b.1, b.2))
      | .funcUint x =>
        (y.assertFuncUint).map fun y => ExprFun xe.Typ (.funcUint fun env =>
          let a := x env; let b := y a.2; (P.mulUint a.1 b.1, b.2))
      | .funcUint8 x =>
        (y.assertFuncUint8).map fun y => ExprFun xe.Typ (.funcUint8 fun env =>
          let a := x env; let b := y a.2; (mulUint8 a.1 b.1, b.2))
      | .funcUint16 x =>
        (y.assertFuncUint16).map fun y => ExprFun xe.Typ (.funcUint16 fun env =>
          let a := x env; let b := y a.2; (mulUint16 a.1 b.1, b.2))
      | .funcUint32 x =>
        (y.assertFuncUint32).map fun y => ExprFun xe.Typ (.funcUint32 fun env =>
          let a := x env; let b := y a.2; (mulUint32 a.1 b.1, b.2))
      | .funcUint64 x =>
        (y.assertFuncUint64).map fun y => ExprFun xe.Typ (.funcUint64 fun env =>
          let a := x env; let b := y a.2; (mulUint64 a.1 b.1, b.2))
      | .funcUintptr x =>
        (y.assertFuncUintptr).map fun y => ExprFun xe.Typ (.funcUintptr fun env =>
          let a := x env; let b := y a.2; (P.mulUintptr a.1 b.1, b.2))
      | .funcFloat32 x =>
        (y.assertFuncFloat32).map fun y => ExprFun xe.Typ (.funcFloat32 fun env =>
          let a := x env; let b := y a.2; (P.mulFloat32 a.1 b.1, b.2))
      | .funcFloat64 x =>
        (y.assertFuncFloat64).map fun y => ExprFun xe.Typ (.funcFloat64 fun env =>
          let a := x env; let b := y a.2; (P.mulFloat64 a.1 b.1, b.2))
      | .funcComplex64 x =>
        (y.assertFuncComplex64).map fun y => ExprFun xe.Typ (.funcComplex64 fun env =>
          let a := x env; let b := y a.2; (P.mulComplex64 a.1 b.1, b.2))
      | .funcComplex128 x =>
        (y.assertFuncComplex128).map fun y => ExprFun xe.Typ (.funcComplex128 fun env =>
          let a := x env; let b := y a.2; (P.mulComplex128 a.1 b.1, b.2))
      | _ => .ok (D.invalidBinaryExpr op xe ye)
    else if yc then
      let x := xe.Fun
      let y := ye.Value
      if isLiteralNumber y 1 then
        .ok xe
      else
        match x with
        | .funcInt x =>
          (y.assertInt).map fun y => ExprFun xe.Typ (.funcInt fun env =>
            let a := x env; (P.mulInt a.1 y, a.2))
        | .funcInt8 x =>
          (y.assertInt8).map fun y => ExprFun xe.Typ (.funcInt8 fun env =>
            let a := x env; (mulInt8 a.1 y, a.2))
        | .funcInt16 x =>
          (y.assertInt16).map fun y => ExprFun xe.Typ (.funcInt16 fun env =>
            let a := x env; (mulInt16 a.1 y, a.2))
        | .funcInt32 x =>
          (y.assertInt32).map fun y => ExprFun xe.Typ (.funcInt32 fun env =>
            let a := x env; (mulInt32 a.1 y, a.2))
        | .funcInt64 x =>
          (y.assertInt64).map fun y => ExprFun xe.Typ (.funcInt64 fun env =>
            let a := x env; (mulInt64 a.1 y, a.2))
        | .funcUint x =>
          (y.assertUint).map fun y => ExprFun xe.Typ (.funcUint fun env =>
            let a := x env; (P.mulUint a.1 y, a.2))
        | .funcUint8 x =>
          (y.assertUint8).map fun y => ExprFun xe.Typ (.funcUint8 fun env =>
            let a := x env; (mulUint8 a.1 y, a.2))
        | .funcUint16 x =>
          (y.assertUint16).map fun y => ExprFun xe.Typ (.funcUint16 fun env =>
            let a := x env; (mulUint16 a.1 y, a.2))
        | .funcUint32 x =>
          (y.assertUint32).map fun y => ExprFun xe.Typ (.funcUint32 fun env =>
            let a := x env; (mulUint32 a.1 y, a.2))
        | .funcUint64 x =>
          (y.assertUint64).map fun y => ExprFun xe.Typ (.funcUint64 fun env =>
            let a := x env; (mulUint64 a.1 y, a.2))
        | .funcUintptr x =>
          (y.assertUintptr).map fun y => ExprFun xe.Typ (.funcUintptr fun env =>
            let a := x env; (P.mulUintptr a.1 y, a.2))
        | .funcFloat32 x =>
          (y.assertFloat32).map fun y => ExprFun xe.Typ (.funcFloat32 fun env =>
            let a := x env; (P.mulFloat32 a.1 y, a.2))
        | .funcFloat64 x =>
          (y.assertFloat64).map fun y => ExprFun xe.Typ (.funcFloat64 fun env =>
            let a := x env; (P.mulFloat64 a.1 y, a.2))
        | .funcComplex64 x =>
          (y.assertComplex64).map fun y => ExprFun xe.Typ (.funcComplex64 fun env =>
            let a := x env; (P.mulComplex64 a.1 y, a.2))
        | .funcComplex128 x =>
          (y.assertComplex128).map fun y => ExprFun xe.Typ (.funcComplex128 fun env =>
            let a := x env; (P.mulComplex128 a.1 y, a.2))
        | _ => .ok (D.invalidBinaryExpr op xe ye)
    else
      let x := xe.Value
      let y := ye.Fun
      if isLiteralNumber x 1 then
        .ok ye
      else
        match y with
        | .funcInt y =>
          (x.assertInt).map fun x => ExprFun xe.Typ (.funcInt fun env =>
            let b := y env; (P.mulInt x b.1, b.2))
        | .funcInt8 y =>
          (x.assertInt8).map fun x => ExprFun xe.Typ (.funcInt8 fun env =>
            let b := y env; (mulInt8 x b.1, b.2))
        | .funcInt16 y =>
          (x.assertInt16).map fun x => ExprFun xe.Typ (.funcInt16 fun env =>
            let b := y env; (mulInt16 x b.1, b.2))
        | .funcInt32 y =>
          (x.assertInt32).map fun x => ExprFun xe.Typ (.funcInt32 fun env =>
            let b := y env; (mulInt32 x b.1, b.2))
        | .funcInt64 y =>
          (x.assertInt64).map fun x => ExprFun xe.Typ (.funcInt64 fun env =>
            let b := y env; (mulInt64 x b.1, b.2))
        | .funcUint y =>
          (x.assertUint).map fun x => ExprFun xe.Typ (.funcUint fun env =>
            let b := y env; (P.mulUint x b.1, b.2))
        | .funcUint8 y =>
          (x.assertUint8).map fun x => ExprFun xe.Typ (.funcUint8 fun env =>
            let b := y env; (mulUint8 x b.1, b.2))
        | .funcUint16 y =>
          (x.assertUint16).map fun x => ExprFun xe.Typ (.funcUint16 fun env =>
            let b := y env; (mulUint16 x b.1, b.2))
        | .funcUint32 y =>
          (x.assertUint32).map fun x => ExprFun xe.Typ (.funcUint32 fun env =>
            let b := y env; (mulUint32 x b.1, b.2))
        | .funcUint64 y =>
          (x.assertUint64).map fun x => ExprFun xe.Typ (.funcUint64 fun env =>
            let b := y env; (mulUint64 x b.1, b.2))
        | .funcUintptr y =>
          (x.assertUintptr).map fun x => ExprFun xe.Typ (.funcUintptr fun env =>
            let b := y env; (P.mulUintptr x b.1, b.2))
        | .funcFloat32 y =>
          (x.assertFloat32).map fun x => ExprFun xe.Typ (.funcFloat32 fun env =>
            let b := y env; (P.mulFloat32 x b.1, b.2))
        | .funcFloat64 y =>
          (x.assertFloat64).map fun x => ExprFun xe.Typ (.funcFloat64 fun env =>
            let b := y env; (P.mulFloat64 x b.1, b.2))
        | .funcComplex64 y =>
          (x.assertComplex64).map fun x => ExprFun xe.Typ (.funcComplex64 fun env =>
            let b := y env; (P.mulComplex64 x b.1, b.2))
        | .funcComplex128 y =>
          (x.assertComplex128).map fun x => ExprFun xe.Typ (.funcComplex128 fun env =>
            let b := y env; (P.mulComplex128 x b.1, b.2))
        | _ => .ok (D.invalidBinaryExpr op xe ye)

/-! ### What a caller observes of an `I`

The dynamic type of a constant, the result type of a closure, and the result
of calling a closure. They are the vocabulary of the theorems; `Comp.Mul`
does not use them. -/

/-- The kind of the dynamic type of a constant value (`reflect.ValueOf(v).Kind()`);
`none` for `nil` and for closures. -/
def I.constKind : I P Env → Option Kind
  | .int _ => some .Int
  | .int8 _ => some .Int8
  | .int16 _ => some .Int16
  | .int32 _ => some .Int32
  | .int64 _ => some .Int64
  | .uint _ => some .Uint
  | .uint8 _ => some .Uint8
  | .uint16 _ => some .Uint16
  | .uint32 _ => some .Uint32
  | .uint64 _ => some .Uint64
  | .uintptr _ => some .Uintptr
  | .float32 _ => some .Float32
  | .float64 _ => some .Float64
  | .complex64 _ => some .Complex64
  | .complex128 _ => some .Complex128
  | .bool _ => some .Bool
  | .string _ => some .String
  | _ => none

/-- The machine kind of a closure: the kind of `T` when the dynamic type is
`func(*Env) T`; `none` for `nil` and for constants. -/
def I.funcKind : I P Env → Option Kind
  | .funcInt _ => some .Int
  | .funcInt8 _ => some .Int8
  | .funcInt16 _ => some .Int16
  | .funcInt32 _ => some .Int32
  | .funcInt64 _ => some .Int64
  | .funcUint _ => some .Uint
  | .funcUint8 _ => some .Uint8
  | .funcUint16 _ => some .Uint16
  | .funcUint32 _ => some .Uint32
  | .funcUint64 _ => some .Uint64
  | .funcUintptr _ => some .Uintptr
  | .funcFloat32 _ => some .Float32
  | .funcFloat64 _ => some .Float64
  | .funcComplex64 _ => some .Complex64
  | .funcComplex128 _ => some .Complex128
  | .funcBool _ => some .Bool
  | .funcString _ => some .String
  | _ => none

/-- Calling a closure on an environment: the value it yields, boxed with its
type, and the environment as the call leaves it; `none` when the `I` holds no
closure. -/
def I.call : I P Env → Env → Option (I P Env × Env)
  | .funcInt f, env => some (.int (f env).1, (f env).2)
  | .funcInt8 f, env => some (.int8 (f env).1, (f env).2)
  | .funcInt16 f, env => some (.int16 (f env).1, (f env).2)
  | .funcInt32 f, env => some (.int32 (f env).1, (f env).2)
  | .funcInt64 f, env => some (.int64 (f env).1, (f env).2)
  | .funcUint f, env => some (.uint (f env).1, (f env).2)
  | .funcUint8 f, env => some (.uint8 (f env).1, (f env).2)
  | .funcUint16 f, env => some (.uint16 (f env).1, (f env).2)
  | .funcUint32 f, env => some (.uint32 (f env).1, (f env).2)
  | .funcUint64 f, env => some (.uint64 (f env).1, (f env).2)
  | .funcUintptr f, env => some (.uintptr (f env).1, (f env).2)
  | .funcFloat32 f, env => some (.float32 (f env).1, (f env).2)
  | .funcFloat64 f, env => some (.float64 (f env).1, (f env).2)
  | .funcComplex64 f, env => some (.complex64 (f env).1, (f env).2)
  | .funcComplex128 f, env => some (.complex128 (f env).1, (f env).2)
  | .funcBool f, env => some (.bool (f env).1, (f env).2)
  | .funcString f, env => some (.string (f env).1, (f env).2)
  | _, _ => none

/-- The native product of two values of one numeric type, at the width of
that type: for the integer types the mathematical product reduced to `w`
bits (two's complement for the signed ones), for the floating-point and
complex types the platform's product. `none` when the two values are not of
one numeric type. -/
def nativeMul : I P Env → I P Env → Option (I P Env)
  | .int a, .int b => some (.int (wrapSigned P.intBits (a * b)))
  | .int8 a, .int8 b => some (.int8 (wrapSigned 8 (a * b)))
  | .int16 a, .int16 b => some (.int16 (wrapSigned 16 (a * b)))
  | .int32 a, .int32 b => some (.int32 (wrapSigned 32 (a * b)))
  | .int64 a, .int64 b => some (.int64 (wrapSigned 64 (a * b)))
  | .uint a, .uint b => some (.uint (wrapUnsigned P.intBits (a * b)))
  | .uint8 a, .uint8 b => some (.uint8 (wrapUnsigned 8 (a * b)))
  | .uint16 a, .uint16 b => some (.uint16 (wrapUnsigned 16 (a * b)))
  | .uint32 a, .uint32 b => some (.uint32 (wrapUnsigned 32 (a * b)))
  | .uint64 a, .uint64 b => some (.uint64 (wrapUnsigned 64 (a * b)))
  | .uintptr a, .uintptr b => some (.uintptr (wrapUnsigned P.ptrBits (a * b)))
  | .float32 a, .float32 b => some (.float32 (P.mulFloat32 a b))
  | .float64 a, .float64 b => some (.float64 (P.mulFloat64 a b))
  | .complex64 a, .complex64 b => some (.complex64 (P.mulComplex64 a b))
  | .complex128 a, .complex128 b => some (.complex128 (P.mulComplex128 a b))
  | _, _ => none


/-- The `Expr` invariant of the data model, on one operand: what the operand
carries has the machine kind of its static type. A non-constant operand
carries a closure of that kind; a constant operand carries a value of that
kind and, when it carries a closure as well, a closure of that kind. -/
def Expr.kindConsistent (e : Expr P Env) : Bool :=
  if e.Const then
    e.Value.constKind == some e.Typ.Kind &&
      (e.Fun.isNil || e.Fun.funcKind == some e.Typ.Kind)
  else
    e.Fun.funcKind == some e.Typ.Kind

/-- The fifteen machine kinds that `Comp.Mul` has a case for. -/
def machineKinds : List Kind :=
  [.Int, .Int8, .Int16, .Int32, .Int64, .Uint, .Uint8, .Uint16, .Uint32, .Uint64, .Uintptr,
   .Float32, .Float64, .Complex64, .Complex128]

/-- Modelled from the spec: the functions `toSameFuncType` and
`invalidBinaryExpr`, whose bodies are not in the translated files, as the spec
describes them, for evaluating `Comp.Mul` on concrete operands. Unification
"promotes operand StaticTypes to a common machine representation": operands
are left as they are, which is all there is to do when they already agree.
The invalid-expression marker is an `Expr` of the invalid type with neither a
constant nor a closure. -/
def specDeps : Deps P Env where
  toSameFuncType := fun _ xe ye => .ok (xe, ye)
  invalidBinaryExpr := fun _ _ _ => { Typ := ⟨"invalid", .Invalid⟩, Value := .nil, Fun := .nil }

end Fast

/-! ### A concrete platform and environment, for evaluating the embedding -/

/-- A 64-bit platform. `float64` is Lean's binary64 `Float` and `complex128` a
pair of them; single precision is carried in the same type, its products not
rounded to 24 bits, so the evaluations below stay on the integer kinds. -/
def Platform.amd64 : Platform where
  intBits := 64
  intBits_pos := by decide
  ptrBits := 64
  float32 := Float
  float64 := Float
  complex64 := Float × Float
  complex128 := Float × Float
  mulFloat32 := fun a b => a * b
  mulFloat64 := fun a b => a * b
  mulComplex64 := fun a b => (a.1 * b.1 - a.2 * b.2, a.1 * b.2 + a.2 * b.1)
  mulComplex128 := fun a b => (a.1 * b.1 - a.2 * b.2, a.1 * b.2 + a.2 * b.1)
  eqFloat32 := fun v n => v == Float.ofInt n
  eqFloat64 := fun v n => v == Float.ofInt n
  eqComplex64 := fun v n => v.1 == Float.ofInt n && v.2 == 0
  eqComplex128 := fun v n => v.1 == Float.ofInt n && v.2 == 0

/-- An environment for the evaluations below: the value bound to each
identifier. -/
abbrev Binds : Type := String → Int

/-- The environment in which `a` is 6 and `b` is 7. -/
def Binds.ab : Binds := fun s => if s = "a" then 6 else if s = "b" then 7 else 0

/-- The closure of an identifier: it reads the binding and leaves the
environment as it is. -/
def Binds.ident (s : String) : Fn Binds Int := fun env => (env s, env)

/-- The `reflect.Type` of `int32`. -/
def RType.int32 : RType := ⟨"int32", .Int32⟩

/-- The `reflect.Type` of `int8`. -/
def RType.int8 : RType := ⟨"int8", .Int8⟩

/-- The `reflect.Type` of `int`. -/
def RType.int : RType := ⟨"int", .Int⟩

/-- The `reflect.Type` of `bool`. -/
def RType.bool : RType := ⟨"bool", .Bool⟩

/-- The compiled `Expr` of an `int32` identifier. -/
def identInt32 (s : String) : Expr Platform.amd64 Binds :=
  { Typ := RType.int32, Value := .nil, Fun := .funcInt32 (Binds.ident s) }

/-- The compiled `Expr` of a `bool` identifier (true when its binding is not 0). -/
def identBool (s : String) : Expr Platform.amd64 Binds :=
  { Typ := RType.bool, Value := .nil, Fun := .funcBool fun env => (env s != 0, env) }

/-- The compiled `Expr` of an `int` identifier. -/
def identInt (s : String) : Expr Platform.amd64 Binds :=
  { Typ := RType.int, Value := .nil, Fun := .funcInt (Binds.ident s) }

/-- The compiled `Expr` of an `int8` identifier. -/
def identInt8 (s : String) : Expr Platform.amd64 Binds :=
  { Typ := RType.int8, Value := .nil, Fun := .funcInt8 (Binds.ident s) }

/-- The `Expr` of an `int` constant that carries its value only. -/
def constInt (v : Int) : Expr Platform.amd64 Binds :=
  { Typ := RType.int, Value := .int v, Fun := .nil }

/-- The `Expr` of an `int8` constant that carries its value only. -/
def constInt8 (v : Int) : Expr Platform.amd64 Binds :=
  { Typ := RType.int8, Value := .int8 v, Fun := .nil }

/-- The `Expr` of an `int32` constant that carries, besides its value, a closure
that yields it. -/
def constFunInt32 (v : Int) : Expr Platform.amd64 Binds :=
  { Typ := RType.int32, Value := .int32 v, Fun := .funcInt32 fun env => (v, env) }

/-- The `Expr` of an `int32` constant that carries its value only. -/
def constInt32 (v : Int) : Expr Platform.amd64 Binds :=
  { Typ := RType.int32, Value := .int32 v, Fun := .nil }

/-- An environment that records the calls made on it: the names of the
closures called, oldest first. -/
abbrev Calls : Type := List String

/-- The compiled `Expr` of a non-constant `int32` operand named `s` with value
`v`: each call of its closure adds `s` to the record. -/
def calledInt32 (s : String) (v : Int) : Expr Platform.amd64 Calls :=
  { Typ := RType.int32, Value := .nil, Fun := .funcInt32 fun env => (v, env ++ [s]) }

/-- The `Expr` of the `int32` constant `v` that carries, besides its value, a
closure that yields it: each call of that closure adds `const` to the record. -/
def calledConstInt32 (v : Int) : Expr Platform.amd64 Calls :=
  { Typ := RType.int32, Value := .int32 v,
    Fun := .funcInt32 fun env => (v, env ++ ["const"]) }

/-! ## Package `interpreter`: syntax, values, outcomes -/

/-- An `*ast.Ident`. -/
structure Ident where
  Name : String
  deriving DecidableEq, Repr

/-- An `ast.Expr`. The statement executor hands expression nodes to the
expression evaluator and never looks into them, so a node is identified by its
source text. -/
structure AstExpr where
  src : String
  deriving DecidableEq, Repr

/-- An `ast.Decl`, identified by its source text. -/
structure AstDecl where
  src : String
  deriving DecidableEq, Repr

/-- An `*ast.BranchStmt`: the keyword and the label, `none` for a nil `Label`. -/
structure BranchStmt where
  Tok : Token
  Label : Option Ident
  deriving DecidableEq, Repr

/-- An `*ast.IncDecStmt`. -/
structure IncDecStmt where
  X : AstExpr
  Tok : Token
  deriving DecidableEq, Repr

/-- An `*ast.SendStmt`. -/
structure SendStmt where
  Chan : AstExpr
  Value : AstExpr
  deriving DecidableEq, Repr

/-- An `*ast.ReturnStmt`. -/
structure ReturnStmt where
  Results : List AstExpr
  deriving DecidableEq, Repr

mutual
/-- An `ast.Stmt`: the statement nodes of `go/ast`, with the fields of `go/ast`
(those of a case clause in the other order). A field that is a pointer or an
interface in Go and may be nil is an `Option`. -/
inductive Stmt where
  | AssignStmt (Lhs : List AstExpr) (Tok : Token) (Rhs : List AstExpr)
  | BlockStmt (node : BlockStmt)
  | BranchStmt (node : BranchStmt)
  | CaseClause (Body : List Stmt) (List : List AstExpr)
  | CommClause (Comm : Option Stmt) (Body : List Stmt)
  | DeclStmt (Decl : AstDecl)
  | DeferStmt (Call : AstExpr)
  | ExprStmt (X : AstExpr)
  | ForStmt (Init : Option Stmt) (Cond : Option AstExpr) (Post : Option Stmt)
      (Body : Option BlockStmt)
  | IfStmt (node : IfStmt)
  | IncDecStmt (node : IncDecStmt)
  | EmptyStmt
  | RangeStmt (Key Value : Option AstExpr) (Tok : Token) (X : AstExpr)
      (Body : Option BlockStmt)
  | ReturnStmt (node : ReturnStmt)
  | SelectStmt (Body : Option BlockStmt)
  | SendStmt (node : SendStmt)
  | SwitchStmt (Init : Option Stmt) (Tag : Option AstExpr) (Body : Option BlockStmt)
  | TypeSwitchStmt (Init : Option Stmt) (Assign : Stmt) (Body : Option BlockStmt)
  | GoStmt (Call : AstExpr)
  | LabeledStmt (Label : Ident) (Stmt : Stmt)
  | BadStmt
/-- An `*ast.BlockStmt`. -/
inductive BlockStmt where
  | mk (List : List Stmt)
/-- An `*ast.IfStmt`. -/
inductive IfStmt where
  | mk (Init : Option Stmt) (Cond : AstExpr) (Body : Option BlockStmt) (Else : Option Stmt)
end

/-- The statements of a block (`block.List`). -/
def BlockStmt.List : BlockStmt → List Stmt
  | .mk l => l

/-- The `Init` of an if statement. -/
def IfStmt.Init : IfStmt → Option Stmt
  | .mk i _ _ _ => i

/-- The `Cond` of an if statement. -/
def IfStmt.Cond : IfStmt → AstExpr
  | .mk _ c _ _ => c

/-- The `Body` of an if statement. -/
def IfStmt.Body : IfStmt → Option BlockStmt
  | .mk _ _ b _ => b

/-- The `Else` of an if statement. -/
def IfStmt.Else : IfStmt → Option Stmt
  | .mk _ _ _ e => e

/-- A `reflect.Value`, as far as the statement executor looks at one: its kind,
and its content when it is a `bool`. -/
inductive Value where
  /-- The zero `reflect.Value`, of kind `Invalid`. -/
  | zero
  | bool (b : Bool)
  | int (n : Int)
  | string (s : String)
  | chan (id : Nat)
  | struct (repr : String)
  /-- The valid value `v` as it is read from an unexported struct field or
  method: `reflect` marks it read-only (`flagRO`). -/
  | unexported (v : Value)
  deriving DecidableEq, Repr

/-- `reflect.Value.Kind`. -/
def Value.Kind : Value → Kind
  | .zero => .Invalid
  | .bool _ => .Bool
  | .int _ => .Int
  | .string _ => .String
  | .chan _ => .Chan
  | .struct _ => .Struct
  | .unexported v => v.Kind

/-- The value a Go panic carries: one of the three control signals of
statement.go, or anything else. -/
inductive Panic where
  | eBreak (label : String)
  | eContinue (label : String)
  | eReturn (results : List Value)
  | other (msg : String)
  deriving DecidableEq, Repr

/-- How a call ends: it returns, or it panics. -/
inductive Outcome (α : Type) where
  | returned (a : α)
  | panicked (p : Panic)
  deriving DecidableEq, Repr

/-- `reflect.Value.Bool`: the content of a `bool`; it panics on a value of any
other kind. -/
def Value.Bool : Value → Outcome Bool
  | .bool b => .returned b
  | .unexported v => v.Bool
  | _ => .panicked (.other "reflect: call of reflect.Value.Bool on non-bool Value")

/-- `reflect.Value.Interface`: the value as an `interface{}`. It panics on the
zero `Value`, and on a value read from an unexported field or method. -/
def Value.Interface : Value → Outcome Value
  | .zero => .panicked (.other "reflect: call of reflect.Value.Interface on zero Value")
  | .unexported _ =>
    .panicked (.other
      "reflect.Value.Interface: cannot return value obtained from unexported field or method")
  | v => .returned v

/-- A call that reads and updates the interpreter's state `σ` (the environments,
the channels, the call stack) and then returns or panics. -/
abbrev Exec (σ α : Type) : Type := σ → Outcome α × σ

/-- A call that returns `a` and leaves the state as it is. -/
def Exec.ret {σ α : Type} (a : α) : Exec σ α := fun s => (.returned a, s)

/-- A call that ends as `o` and leaves the state as it is. -/
def Exec.lift {σ α : Type} (o : Outcome α) : Exec σ α := fun s => (o, s)

/-- A call that panics with `p`. -/
def Exec.panic {σ α : Type} (p : Panic) : Exec σ α := fun s => (.panicked p, s)

/-- Sequencing: `f` runs on what `m` returns, in the state `m` leaves; a panic of
`m` goes through. -/
def Exec.bind {σ α β : Type} (m : Exec σ α) (f : α → Exec σ β) : Exec σ β := fun s =>
  match m s with
  | (.returned a, s1) => f a s1
  | (.panicked p, s1) => (.panicked p, s1)

/-- An argument of `env.Errorf`. -/
inductive FmtArg where
  | stmt (node : Stmt)
  /-- The argument `r.TypeOf(node)`. -/
  | typeOfStmt (node : Stmt)
  | expr (node : AstExpr)
  | value (v : Value)
  /-- The argument `typeOf(v)`. -/
  | typeOfValue (v : Value)
  /-- An argument that is an `interface{}`, such as `cond.Interface()`. -/
  | iface (v : Value)

/-- The result type of every statement evaluator: `(r.Value, []r.Value)`. -/
abbrev Results : Type := Value × List Value

/-- The declarations of package `interpreter` and of `gomacro/base` that
statement.go uses and whose bodies are not in the translated files: the
constants `None`, `Nil` and `One`, the constructor `NewEnv`, and the methods
of `*Env` that evaluate expressions and the statement kinds dispatched
elsewhere. They are parameters of the embedding. `Env` is the type of an
environment (a `*Env`), `σ` the state they read and update, `Place` the type
of what `evalPlace` returns. -/
structure Runtime (Env σ : Type) where
  Place : Type
  None : Value
  Nil : Value
  One : Value
  NewEnv : Env → String → σ → Env × σ
  Errorf : Env → String → List FmtArg → Exec σ Results
  PackValues : Value → List Value → List Value
  Eval : Env → AstExpr → Exec σ Results
  evalExpr : Env → AstExpr → Exec σ Results
  evalExpr1 : Env → AstExpr → Exec σ Value
  evalPlace : Env → AstExpr → Exec σ Place
  assignPlace : Env → Place → Token → Value → Exec σ Value
  Send : Value → Value → Exec σ Unit
  evalAssignments : Env → List AstExpr → Token → List AstExpr → Exec σ Results
  evalDecl : Env → AstDecl → Exec σ Results
  evalDefer : Env → AstExpr → Exec σ Results
  evalFor : Env → Option Stmt → Option AstExpr → Option Stmt → Option BlockStmt →
    Exec σ Results
  evalForRange : Env → Option AstExpr → Option AstExpr → Token → AstExpr →
    Option BlockStmt → Exec σ Results
  evalSelect : Env → Option BlockStmt → Exec σ Results
  evalSwitch : Env → Option Stmt → Option AstExpr → Option BlockStmt → Exec σ Results
  evalTypeSwitch : Env → Option Stmt → Stmt → Option BlockStmt → Exec σ Results

section Interpreter

variable {Env σ : Type} (R : Runtime Env σ)

/-- Modelled from the spec: `Env.evalExprs`, whose body is not in the translated
files. A return statement with several results gathers "each independently
evaluated result expression": the expressions are evaluated one by one, in
source order, each to its single value. -/
def evalExprs (env : Env) : List AstExpr → Exec σ (List Value)
  | [] => Exec.ret []
  | e :: es =>
    (R.evalExpr1 env e).bind fun v => (evalExprs env es).bind fun vs => Exec.ret (v :: vs)

/-- `Env.evalBranch` (statement.go:119-136). -/
def evalBranch (env : Env) (node : BranchStmt) : Exec σ Results :=
  let label : String :=
    match node.Label with
    | some id => id.Name
    | none => ""
  match node.Tok with
  | .BREAK => Exec.panic (.eBreak label)
  | .CONTINUE => Exec.panic (.eContinue label)
  | .GOTO => R.Errorf env "unimplemented: goto" []
  | .FALLTHROUGH => R.Errorf env "invalid fallthrough: not the last statement in a case" []
  | _ =>
    R.Errorf env "unimplemented branch: %v <%v>"
      [.stmt (.BranchStmt node), .typeOfStmt (.BranchStmt node)]

/-- `Env.evalIncDec` (statement.go:157-169). -/
def evalIncDec (env : Env) (node : IncDecStmt) : Exec σ Results :=
  let op : Option Token :=
    match node.Tok with
    | .INC => some .ADD_ASSIGN
    | .DEC => some .SUB_ASSIGN
    | _ => none
  match op with
  | none =>
    R.Errorf env "unsupported *ast.IncDecStmt operation, expecting ++ or -- : %v <%v>"
      [.stmt (.IncDecStmt node), .typeOfStmt (.IncDecStmt node)]
  | some op =>
    (R.evalPlace env node.X).bind fun place =>
      (R.assignPlace env place op R.One).bind fun v => Exec.ret (v, [])

/-- `Env.evalSend` (statement.go:171-179). -/
def evalSend (env : Env) (node : SendStmt) : Exec σ Results :=
  (R.evalExpr1 env node.Chan).bind fun channel =>
    if channel.Kind ≠ Kind.Chan then
      R.Errorf env "<- invoked on non-channel: %v evaluated to %v <%v>"
        [.expr node.Chan, .value channel, .typeOfValue channel]
    else
      (R.evalExpr1 env node.Value).bind fun value =>
        (R.Send channel value).bind fun _ => Exec.ret (R.None, [])

/-- `Env.evalReturn` (statement.go:181-190). Both branches end in
`panic(eReturn{rets})`. -/
def evalReturn (env : Env) (node : ReturnStmt) : Exec σ Results :=
  match node.Results with
  | [e] =>
    (R.evalExpr env e).bind fun r => Exec.panic (.eReturn (R.PackValues r.1 r.2))
  | es =>
    (evalExprs R env es).bind fun rets => Exec.panic (.eReturn rets)

mutual
/-- `Env.evalBlock` (statement.go:59-66); `none` is a nil `*ast.BlockStmt`. -/
def evalBlock (env : Env) : Option BlockStmt → Exec σ Results
  | none => Exec.ret (R.None, [])
  | some (.mk []) => Exec.ret (R.None, [])
  | some (.mk (s :: list)) => fun st =>
    let (env, st) := R.NewEnv env "{}" st
    evalStatements env (s :: list) st

/-- `Env.evalStatements` (statement.go:68-76). -/
def evalStatements (env : Env) (list : List Stmt) : Exec σ Results :=
  evalStatementsFrom env (R.None, []) list

/-- The loop of `Env.evalStatements`, from the pair `ret, rets` it has reached:
each statement's results replace the pair. -/
def evalStatementsFrom (env : Env) (rets : Results) : List Stmt → Exec σ Results
  | [] => Exec.ret rets
  | s :: list => (evalStatement env s).bind fun rets => evalStatementsFrom env rets list

/-- `Env.evalStatement` (statement.go:78-117). The last three cases are the
source's `default`. -/
def evalStatement (env : Env) : Stmt → Exec σ Results
  | .AssignStmt lhs tok rhs => R.evalAssignments env lhs tok rhs
  | .BlockStmt node => evalBlock env (some node)
  | .BranchStmt node => evalBranch R env node
  | .CaseClause b l =>
    R.Errorf env "misplaced case: not inside switch or select: %v <%v>"
      [.stmt (.CaseClause b l), .typeOfStmt (.CaseClause b l)]
  | .CommClause c b =>
    R.Errorf env "misplaced case: not inside switch or select: %v <%v>"
      [.stmt (.CommClause c b), .typeOfStmt (.CommClause c b)]
  | .DeclStmt decl => R.evalDecl env decl
  | .DeferStmt call => R.evalDefer env call
  | .ExprStmt x => R.evalExpr env x
  | .ForStmt init cond post body => R.evalFor env init cond post body
  | .IfStmt node => evalIf env node
  | .IncDecStmt node => evalIncDec R env node
  | .EmptyStmt => Exec.ret (R.None, [])
  | .RangeStmt key value tok x body => R.evalForRange env key value tok x body
  | .ReturnStmt node => evalReturn R env node
  | .SelectStmt body => R.evalSelect env body
  | .SendStmt node => evalSend R env node
  | .SwitchStmt init tag body => R.evalSwitch env init tag body
  | .TypeSwitchStmt init assign body => R.evalTypeSwitch env init assign body
  | .GoStmt call =>
    R.Errorf env "unimplemented statement: %v <%v>"
      [.stmt (.GoStmt call), .typeOfStmt (.GoStmt call)]
  | .LabeledStmt label stmt =>
    R.Errorf env "unimplemented statement: %v <%v>"
      [.stmt (.LabeledStmt label stmt), .typeOfStmt (.LabeledStmt label stmt)]
  | .BadStmt =>
    R.Errorf env "unimplemented statement: %v <%v>" [.stmt .BadStmt, .typeOfStmt .BadStmt]

/-- `Env.evalIf` (statement.go:138-155). The first step is the source's
`if node.Init != nil`: it yields the environment the rest runs in. -/
def evalIf (env : Env) : IfStmt → Exec σ Results
  | .mk init cond body els =>
    Exec.bind
      (match init with
        | some i => fun st =>
          let (env, st) := R.NewEnv env "if {}" st
          ((evalStatement env i).bind fun _ => Exec.ret env) st
        | none => Exec.ret env)
      fun env =>
        (R.Eval env cond).bind fun c =>
          let cond := c.1
          if cond.Kind ≠ Kind.Bool then
            (Exec.lift cond.Interface).bind fun cf =>
              R.Errorf env "if: invalid condition type <%T> %#v, expecting <bool>"
                [.iface cf, .iface cf]
          else
            (Exec.lift cond.Bool).bind fun b =>
              if b then
                evalBlock env body
              else
                match els with
                | some e => evalStatement env e
                | none => Exec.ret (R.Nil, [])
end

/-- Evaluating the statements of a list one after the other in one environment,
each once, each in the state the one before it leaves, as long as each
returns: the results of every statement, in order, and the state the last one
leaves; `none` as soon as one of them panics. This is the description against
which `Env.evalStatements` is checked; the executor does not use it. -/
def runEach (env : Env) : List Stmt → σ → Option (List Results × σ)
  | [], st => some ([], st)
  | s :: list, st =>
    match evalStatement R env s st with
    | (.returned r, st1) => (runEach env list st1).map fun rs => (r :: rs.1, rs.2)
    | (.panicked _, _) => none

/-- The part of `Env.evalIf` after the init statement (statement.go:143-154), in
the environment `env` that part runs in: the condition, the check of its kind,
and the branch. It is the same text as in `evalIf`, named for the theorems. -/
def evalIfRest (env : Env) (cond : AstExpr) (body : Option BlockStmt) (els : Option Stmt) :
    Exec σ Results :=
  (R.Eval env cond).bind fun c =>
    let cond := c.1
    if cond.Kind ≠ Kind.Bool then
      (Exec.lift cond.Interface).bind fun cf =>
        R.Errorf env "if: invalid condition type <%T> %#v, expecting <bool>"
          [.iface cf, .iface cf]
    else
      (Exec.lift cond.Bool).bind fun b =>
        if b then
          evalBlock R env body
        else
          match els with
          | some e => evalStatement R env e
          | none => Exec.ret (R.Nil, [])

end Interpreter

/-! ### A runtime that records every call, for evaluating the executor -/

/-- The value of an expression in the recording runtime: `true`, `false`, the
channel `ch`, and any other source text as a string. -/
def Recording.value (e : AstExpr) : Value :=
  if e.src = "true" then .bool true
  else if e.src = "false" then .bool false
  else if e.src = "ch" then .chan 0
  else if e.src = "nil" then .zero
  else if e.src = "s.hidden" then .unexported (.int 7)
  else .string e.src

/-- A call of the recording runtime: it appends `name` to the record and
returns `a`. -/
def Recording.call {α : Type} (name : String) (a : α) : Exec (List String) α :=
  fun log => (.returned a, log ++ [name])

/-- A runtime for evaluating the executor on concrete statements. An environment
is the list of the scopes it is nested in, innermost first; the state is the
record of the calls made so far. Every function appends its name and its
expression to the record; `Errorf` then panics with its format, `evalExpr` of
`f()` returns two values, and `PackValues` wraps a single value. -/
def Recording.runtime : Runtime (List String) (List String) where
  Place := AstExpr
  None := .struct "struct {}{}"
  Nil := .zero
  One := .int 1
  NewEnv := fun env name log => (name :: env, log ++ ["NewEnv " ++ name])
  Errorf := fun _ fmt _ log => (.panicked (.other fmt), log ++ ["Errorf " ++ fmt])
  PackValues := fun v vs => if vs.isEmpty then [v] else vs
  Eval := fun _ e => Recording.call ("Eval " ++ e.src) (Recording.value e, [])
  evalExpr := fun _ e =>
    Recording.call ("evalExpr " ++ e.src)
      (if e.src = "f()" then (.int 1, [.int 1, .int 2]) else (Recording.value e, []))
  evalExpr1 := fun _ e => Recording.call ("evalExpr1 " ++ e.src) (Recording.value e)
  evalPlace := fun _ e => Recording.call ("evalPlace " ++ e.src) e
  assignPlace := fun _ p _ v => Recording.call ("assignPlace " ++ p.src) v
  Send := fun _ _ => Recording.call "Send" ()
  evalAssignments := fun _ _ _ _ => Recording.call "evalAssignments" (.zero, [])
  evalDecl := fun _ d => Recording.call ("evalDecl " ++ d.src) (.zero, [])
  evalDefer := fun _ e => Recording.call ("evalDefer " ++ e.src) (.zero, [])
  evalFor := fun _ _ _ _ _ => Recording.call "evalFor" (.zero, [])
  evalForRange := fun _ _ _ _ _ _ => Recording.call "evalForRange" (.zero, [])
  evalSelect := fun _ _ => Recording.call "evalSelect" (.zero, [])
  evalSwitch := fun _ _ _ _ => Recording.call "evalSwitch" (.zero, [])
  evalTypeSwitch := fun _ _ _ _ => Recording.call "evalTypeSwitch" (.zero, [])

/-! ### Environments with variables

The type `Env`, its constructor `NewEnv` and the evaluation of declarations
and identifiers are not in the translated files. The scope law is a statement
about them together with `Env.evalBlock` and `Env.evalIf`, so they are
modelled here from the data model of the spec. -/

/-- Modelled from the spec: an Environment, whose declaration is not in the
translated files: "a scope frame owning a mapping from identifier to storage
slot, plus an ownership link to the lexically enclosing Environment", which is
`none` for the program scope. -/
structure Scope where
  Name : String
  Outer : Option Nat
  Binds : List (String × Value)
  deriving DecidableEq, Repr

/-- The environments there are, in the order they were created: an environment
(a `*Env`) is its position in this list. -/
abbrev Scopes : Type := List Scope

/-- Modelled from the spec: `NewEnv`, whose body is not in the translated
files: "`NewChildScope(outer)` creates an Environment whose outer link is
`outer`", with no variable in it. -/
def Scopes.NewEnv (outer : Nat) (name : String) (st : Scopes) : Nat × Scopes :=
  (st.length, st ++ [{ Name := name, Outer := some outer, Binds := [] }])

/-- Modelled from the spec: a declaration binds the identifier in the
environment it is evaluated in, in front of what that environment binds
already. -/
def Scopes.declare (env : Nat) (x : String) (v : Value) (st : Scopes) : Scopes :=
  match st[env]? with
  | some sc => st.set env { sc with Binds := (x, v) :: sc.Binds }
  | none => st

/-- Modelled from the spec: "lookup walks innermost-to-outermost": the binding
of `x` in the environment `env`, or else in the environment its outer link
leads to, for at most `fuel` environments. -/
def Scopes.lookup (st : Scopes) : Nat → Nat → String → Option Value
  | 0, _, _ => none
  | fuel + 1, env, x =>
    match st[env]? with
    | none => none
    | some sc =>
      match sc.Binds.lookup x with
      | some v => some v
      | none =>
        match sc.Outer with
        | some outer => Scopes.lookup st fuel outer x
        | none => none

/-- What the identifier `x` denotes in the environment `env`: `none` when it is
not visible there. An environment has fewer enclosing environments than its
position, so `env + 1` steps reach the program scope. -/
def Scopes.visible (st : Scopes) (env : Nat) (x : String) : Option Value :=
  st.lookup (env + 1) env x

/-- The environments form chains rooted at the program scope ("acyclic"): every
outer link leads to an environment created earlier. -/
def Scopes.wellFormed (st : Scopes) : Bool :=
  (List.range st.length).all fun i =>
    match st[i]? with
    | some sc =>
      match sc.Outer with
      | some outer => decide (outer < i)
      | none => true
    | none => true

/-- The value of an expression in the runtime with variables: the literals
`true` and `false`, and otherwise the identifier the source text is. -/
def Scoped.eval (env : Nat) (e : AstExpr) : Exec Scopes Value := fun st =>
  if e.src = "true" then (.returned (.bool true), st)
  else if e.src = "false" then (.returned (.bool false), st)
  else
    match st.visible env e.src with
    | some v => (.returned v, st)
    | none => (.panicked (.other ("undefined identifier: " ++ e.src)), st)

/-- A function of the runtime that the model of environments does not cover:
it panics and leaves the state as it is. -/
def Scoped.notModelled {α : Type} (name : String) : Exec Scopes α :=
  Exec.panic (.other ("not modelled: " ++ name))

/-- Modelled from the spec: the runtime of the scope law. The state is the list
of environments; `NewEnv` creates a child scope, a declaration `var x` binds
`x` to the zero value `0` in the environment it is evaluated in, an
identifier evaluates to what it denotes there, and `Errorf` panics with its
format. Assignments, calls, loops and switches are outside the model. -/
def Scoped.runtime : Runtime Nat Scopes where
  Place := String
  None := .struct "struct {}{}"
  Nil := .zero
  One := .int 1
  NewEnv := Scopes.NewEnv
  Errorf := fun _ fmt _ => Exec.panic (.other fmt)
  PackValues := fun v vs => if vs.isEmpty then [v] else vs
  Eval := fun env e => (Scoped.eval env e).bind fun v => Exec.ret (v, [])
  evalExpr := fun env e => (Scoped.eval env e).bind fun v => Exec.ret (v, [])
  evalExpr1 := Scoped.eval
  evalPlace := fun _ _ => Scoped.notModelled "evalPlace"
  assignPlace := fun _ _ _ _ => Scoped.notModelled "assignPlace"
  Send := fun _ _ => Scoped.notModelled "Send"
  evalAssignments := fun _ _ _ _ => Scoped.notModelled "evalAssignments"
  evalDecl := fun env d st =>
    (.returned (.struct "struct {}{}", []), st.declare env d.src (.int 0))
  evalDefer := fun _ _ => Scoped.notModelled "evalDefer"
  evalFor := fun _ _ _ _ _ => Scoped.notModelled "evalFor"
  evalForRange := fun _ _ _ _ _ _ => Scoped.notModelled "evalForRange"
  evalSelect := fun _ _ => Scoped.notModelled "evalSelect"
  evalSwitch := fun _ _ _ _ => Scoped.notModelled "evalSwitch"
  evalTypeSwitch := fun _ _ _ _ => Scoped.notModelled "evalTypeSwitch"

/-- The state `st1` keeps the environments of `st`, except perhaps `env`: they
are all there, each as it was. -/
def Scopes.keepsBut (env : Nat) (st st1 : Scopes) : Prop :=
  st.length ≤ st1.length ∧ ∀ e, e < st.length → e ≠ env → st1[e]? = st[e]?

/-- The state `st1` keeps the environments of `st`: they are all there, each as
it was. -/
def Scopes.keeps (st st1 : Scopes) : Prop :=
  st.length ≤ st1.length ∧ ∀ e, e < st.length → st1[e]? = st[e]?

/-- The program scope with `x` bound to 42, for evaluating the scope law. -/
def Scopes.global : Scopes := [{ Name := "global", Outer := none, Binds := [("x", .int 42)] }]

/-! ## Theorems: machine arithmetic -/

theorem wrapSigned_dvd (w : Nat) (n : Int) : (2 : Int) ^ w ∣ wrapSigned w n - n := by
  unfold wrapSigned
  have h : (2 : Int) ^ w ∣ n % 2 ^ w - n := by
    have := Int.emod_add_ediv n (2 ^ w)
    exact ⟨-(n / 2 ^ w), by linarith⟩
  simp only []
  split
  · exact h
  · have : n % 2 ^ w - 2 ^ w - n = (n % 2 ^ w - n) - 2 ^ w := by ring
    rw [this]
    exact Int.dvd_sub h (dvd_refl _)

theorem wrapSigned_range (w : Nat) (hw : 0 < w) (n : Int) :
    -(2 : Int) ^ (w - 1) ≤ wrapSigned w n ∧ wrapSigned w n < 2 ^ (w - 1) := by
  unfold wrapSigned
  have hpow : (2 : Int) ^ w = 2 * 2 ^ (w - 1) := by
    obtain ⟨k, rfl⟩ : ∃ k, w = k + 1 := ⟨w - 1, by omega⟩
    simp [pow_succ, mul_comm]
  have hpos : (0 : Int) < 2 ^ w := by positivity
  have h0 := Int.emod_nonneg n (ne_of_gt hpos)
  have h1 := Int.emod_lt_of_pos n hpos
  have hp1 : (0 : Int) < 2 ^ (w - 1) := by positivity
  simp only []
  split <;> constructor <;> linarith

theorem wrapUnsigned_lt (w : Nat) (n : Nat) : wrapUnsigned w n < 2 ^ w :=
  Nat.mod_lt _ (by positivity)

theorem wrapUnsigned_modEq (w : Nat) (n : Nat) : wrapUnsigned w n ≡ n [MOD 2 ^ w] :=
  Nat.mod_modEq _ _

/-! ## Theorems: `Comp.Mul` -/

section MulTheorems

variable {P : Platform} {Env : Type}

/-- A closure of kind `K` is built by the constructor of `K`. -/
theorem I.funcKind_inv (f : I P Env) (K : Kind) (h : f.funcKind = some K) :
    match K with
    | .Int => ∃ g, f = .funcInt g
    | .Int8 => ∃ g, f = .funcInt8 g
    | .Int16 => ∃ g, f = .funcInt16 g
    | .Int32 => ∃ g, f = .funcInt32 g
    | .Int64 => ∃ g, f = .funcInt64 g
    | .Uint => ∃ g, f = .funcUint g
    | .Uint8 => ∃ g, f = .funcUint8 g
    | .Uint16 => ∃ g, f = .funcUint16 g
    | .Uint32 => ∃ g, f = .funcUint32 g
    | .Uint64 => ∃ g, f = .funcUint64 g
    | .Uintptr => ∃ g, f = .funcUintptr g
    | .Float32 => ∃ g, f = .funcFloat32 g
    | .Float64 => ∃ g, f = .funcFloat64 g
    | .Complex64 => ∃ g, f = .funcComplex64 g
    | .Complex128 => ∃ g, f = .funcComplex128 g
    | .Bool => ∃ g, f = .funcBool g
    | .String => ∃ g, f = .funcString g
    | _ => False := by
  cases f <;> cases h <;> exact ⟨_, rfl⟩

/-- A constant of kind `K` is built by the constructor of `K`. -/
theorem I.constKind_inv (v : I P Env) (K : Kind) (h : v.constKind = some K) :
    match K with
    | .Int => ∃ a, v = .int a
    | .Int8 => ∃ a, v = .int8 a
    | .Int16 => ∃ a, v = .int16 a
    | .Int32 => ∃ a, v = .int32 a
    | .Int64 => ∃ a, v = .int64 a
    | .Uint => ∃ a, v = .uint a
    | .Uint8 => ∃ a, v = .uint8 a
    | .Uint16 => ∃ a, v = .uint16 a
    | .Uint32 => ∃ a, v = .uint32 a
    | .Uint64 => ∃ a, v = .uint64 a
    | .Uintptr => ∃ a, v = .uintptr a
    | .Float32 => ∃ a, v = .float32 a
    | .Float64 => ∃ a, v = .float64 a
    | .Complex64 => ∃ a, v = .complex64 a
    | .Complex128 => ∃ a, v = .complex128 a
    | .Bool => ∃ a, v = .bool a
    | .String => ∃ a, v = .string a
    | _ => False := by
  cases v <;> cases h <;> exact ⟨_, rfl⟩

/-- C1. Both operands dynamic, closures of one machine kind `K`, unified type
numeric: `Comp.Mul` returns an `Expr` of the unified type whose closure, on
every environment, calls the left closure, then the right one on the
environment the left one leaves, and yields the native product of the two
values at the width of `K`. For the integer kinds that product is the
mathematical product reduced modulo `2^w`, in two's complement for the signed
ones. -/
theorem Mul_dynamic_product (D : Deps P Env) (op : Token) (xe ye xe' ye' : Expr P Env)
    (K : Kind) (hK : K ∈ machineKinds)
    (hxc : xe.Const = false) (hyc : ye.Const = false)
    (hu : D.toSameFuncType op xe ye = .ok (xe', ye'))
    (hcat : isCategory xe'.Typ.Kind [Kind.Int, Kind.Uint, Kind.Float64, Kind.Complex128] = true)
    (hx : xe'.Fun.funcKind = some K) (hy : ye'.Fun.funcKind = some K) :
    (∃ e, Comp.Mul D op xe ye = .ok e ∧ e.Typ = xe'.Typ ∧ e.Const = false ∧
      e.Fun.funcKind = some K ∧
      ∀ env, ∃ a env1 b env2 c,
        xe'.Fun.call env = some (a, env1) ∧ ye'.Fun.call env1 = some (b, env2) ∧
        a.constKind = some K ∧ b.constKind = some K ∧
        nativeMul a b = some c ∧ c.constKind = some K ∧
        e.Fun.call env = some (c, env2)) ∧
    (∀ w n, 0 < w → (2 : Int) ^ w ∣ wrapSigned w n - n ∧
      -(2 : Int) ^ (w - 1) ≤ wrapSigned w n ∧ wrapSigned w n < 2 ^ (w - 1)) ∧
    (∀ w n, wrapUnsigned w n ≡ n [MOD 2 ^ w] ∧ wrapUnsigned w n < 2 ^ w) := by
  refine ⟨?_, fun w n hw => ⟨wrapSigned_dvd w n, wrapSigned_range w hw n⟩,
    fun w n => ⟨wrapUnsigned_modEq w n, wrapUnsigned_lt w n⟩⟩
  obtain ⟨xt, xv, xf⟩ := xe'
  obtain ⟨yt, yv, yf⟩ := ye'
  have hx' := I.funcKind_inv xf K hx
  have hy' := I.funcKind_inv yf K hy
  cases K <;> first
    | (exfalso; revert hK; decide)
    | (obtain ⟨f, rfl⟩ := hx'
       obtain ⟨g, rfl⟩ := hy'
       simp only [Comp.Mul, hu, hxc, hyc, hcat, Bool.not_true, Bool.false_eq_true, if_false,
         beq_self_eq_true, if_true]
       exact ⟨_, rfl, rfl, rfl, rfl,
         fun env => ⟨_, _, _, _, _, rfl, rfl, rfl, rfl, rfl, rfl, rfl⟩⟩)

/-- C1, at `a * b` with `a` and `b` two `int32` identifiers bound to 6 and 7:
the compiled closure yields `int32` 42 and leaves the environment as it is. -/
theorem Mul_dynamic_product_witness :
    ∃ e, Comp.Mul specDeps .MUL (identInt32 "a") (identInt32 "b") = .ok e ∧
      e.Typ = RType.int32 ∧ e.Fun.call Binds.ab = some (.int32 42, Binds.ab) := by
  obtain ⟨⟨e, he, ht, _, _, hcall⟩, _⟩ :=
    Mul_dynamic_product specDeps .MUL (identInt32 "a") (identInt32 "b")
      (identInt32 "a") (identInt32 "b") .Int32 (by decide) rfl rfl rfl rfl rfl rfl
  obtain ⟨a, env1, b, env2, c, h1, h2, _, _, h3, _, h4⟩ := hcall Binds.ab
  refine ⟨e, he, ht, ?_⟩
  have ha : a = .int32 6 ∧ env1 = Binds.ab := by
    have : some (a, env1) = some (I.int32 6, Binds.ab) := h1.symm.trans rfl
    simpa using this
  obtain ⟨rfl, rfl⟩ := ha
  have hb : b = .int32 7 ∧ env2 = Binds.ab := by
    have : some (b, env2) = some (I.int32 7, Binds.ab) := h2.symm.trans rfl
    simpa using this
  obtain ⟨rfl, rfl⟩ := hb
  have hc : c = .int32 42 := by
    have : some c = some (I.int32 42) := h3.symm.trans rfl
    simpa using this
  rw [h4, hc]

/-- C2. Identity law, on operands of a numeric type: `Comp.Mul` of a
non-constant `x` and a constant `c` that is the literal 1 returns, in either
order, the operand `x` itself as unification left it: its type, its closure,
nothing built. Nothing is asked of the machine kind of the closure of `x`. -/
theorem Mul_identity (D : Deps P Env) (op : Token) (x c : Expr P Env)
    (hx : x.Const = false) (hc : c.Const = true) :
    (∀ x' c', D.toSameFuncType op x c = .ok (x', c') →
      isCategory x'.Typ.Kind [Kind.Int, Kind.Uint, Kind.Float64, Kind.Complex128] = true →
      isLiteralNumber c'.Value 1 = true →
      Comp.Mul D op x c = .ok x') ∧
    (∀ c' x', D.toSameFuncType op c x = .ok (c', x') →
      isCategory c'.Typ.Kind [Kind.Int, Kind.Uint, Kind.Float64, Kind.Complex128] = true →
      isLiteralNumber c'.Value 1 = true →
      Comp.Mul D op c x = .ok x') := by
  constructor
  · intro x' c' hu hcat h1
    simp [Comp.Mul, hu, hx, hc, hcat, h1]
  · intro c' x' hu hcat h1
    simp [Comp.Mul, hu, hx, hc, hcat, h1]

/-- C2, at `a * 1` and `1 * a` with `a` an `int32` identifier: both return the
`Expr` of `a`, closure included. -/
theorem Mul_identity_witness :
    Comp.Mul specDeps .MUL (identInt32 "a") (constInt32 1) = .ok (identInt32 "a") ∧
    Comp.Mul specDeps .MUL (constInt32 1) (identInt32 "a") = .ok (identInt32 "a") :=
  ⟨(Mul_identity specDeps .MUL (identInt32 "a") (constInt32 1) rfl rfl).1 _ _ rfl rfl rfl,
   (Mul_identity specDeps .MUL (identInt32 "a") (constInt32 1) rfl rfl).2 _ _ rfl rfl rfl⟩

/-- C3, as amended. Two non-constant operands whose closures differ in machine
kind never give a compiled product, and which failure it is depends on the
left operand alone: the invalid marker when the unified type is not numeric
or the left closure is not of one of the fifteen kinds, and otherwise a fault,
the unchecked type assertion on the right closure failing. -/
theorem Mul_kind_mismatch (D : Deps P Env) (op : Token) (xe ye xe' ye' : Expr P Env)
    (hxc : xe.Const = false) (hyc : ye.Const = false)
    (hu : D.toSameFuncType op xe ye = .ok (xe', ye'))
    (hne : xe'.Fun.funcKind ≠ ye'.Fun.funcKind) :
    ((isCategory xe'.Typ.Kind [Kind.Int, Kind.Uint, Kind.Float64, Kind.Complex128] = false ∨
        ∀ K ∈ machineKinds, xe'.Fun.funcKind ≠ some K) →
      Comp.Mul D op xe ye = .ok (D.invalidBinaryExpr op xe' ye')) ∧
    (isCategory xe'.Typ.Kind [Kind.Int, Kind.Uint, Kind.Float64, Kind.Complex128] = true →
      ∀ K ∈ machineKinds, xe'.Fun.funcKind = some K →
      ∃ wanted, Comp.Mul D op xe ye = .error (.typeAssertion wanted)) := by
  constructor
  · rintro (hcat | hk)
    · simp [Comp.Mul, hu, hcat]
    · by_cases hcat : isCategory xe'.Typ.Kind
          [Kind.Int, Kind.Uint, Kind.Float64, Kind.Complex128] = true
      · simp only [Comp.Mul, hu, hxc, hyc, hcat, Bool.not_true, Bool.false_eq_true, if_false,
          beq_self_eq_true, if_true]
        cases hfx : xe'.Fun <;> first
          | rfl
          | (exfalso; rw [hfx] at hk; exact hk _ (by decide) rfl)
      · simp [Comp.Mul, hu, hcat]
  · intro hcat K hK hx
    obtain ⟨xt, xv, xf⟩ := xe'
    obtain ⟨yt, yv, yf⟩ := ye'
    have hx' := I.funcKind_inv xf K hx
    cases K <;> first
      | (exfalso; revert hK; decide)
      | (obtain ⟨f, rfl⟩ := hx'
         simp only [Comp.Mul, hu, hxc, hyc, hcat, Bool.not_true, Bool.false_eq_true,
           if_false, beq_self_eq_true, if_true]
         cases yf <;> first
           | exact ⟨_, rfl⟩
           | exact absurd rfl hne)

/-- C3 as amended, at an `int` identifier times an `int8` identifier: the
assertion `y.(func(*Env) int)` fails. -/
theorem Mul_kind_mismatch_witness :
    Comp.Mul specDeps .MUL (identInt "a") (identInt8 "b")
      = .error (.typeAssertion "func(*Env) int") := by
  obtain ⟨w, hw⟩ := (Mul_kind_mismatch specDeps .MUL (identInt "a") (identInt8 "b")
    (identInt "a") (identInt8 "b") rfl rfl rfl (by decide)).2 rfl .Int (by decide) rfl
  have h : Except.error (Fault.typeAssertion "func(*Env) int")
      = (Except.error (Fault.typeAssertion w) : Except Fault (Expr Platform.amd64 Binds)) :=
    Eq.trans rfl hw
  rw [hw]
  exact h.symm

/-- C3 as stated fails: with a left closure `func(*Env) int` and a right closure
`func(*Env) int8`, both non-constant, `Comp.Mul` panics; it returns nothing,
the invalid marker included. -/
theorem Mul_kind_mismatch_counterexample :
    (identInt "a").Const = false ∧ (identInt8 "b").Const = false ∧
    (identInt "a").Fun.funcKind = some .Int ∧ (identInt8 "b").Fun.funcKind = some .Int8 ∧
    ¬ ∃ e, Comp.Mul specDeps .MUL (identInt "a") (identInt8 "b") = .ok e := by
  refine ⟨rfl, rfl, rfl, rfl, ?_⟩
  rintro ⟨e, he⟩
  have h : Comp.Mul specDeps .MUL (identInt "a") (identInt8 "b")
      = .error (.typeAssertion "func(*Env) int") := rfl
  rw [h] at he
  cases he

/-- C4. When the static type of the left operand after unification is outside
the four numeric categories, `Comp.Mul` returns the invalid marker, whatever
the operands are: constant or not, the literal 1 or not. -/
theorem Mul_invalid_category (D : Deps P Env) (op : Token) (xe ye xe' ye' : Expr P Env)
    (hu : D.toSameFuncType op xe ye = .ok (xe', ye'))
    (hcat : isCategory xe'.Typ.Kind [Kind.Int, Kind.Uint, Kind.Float64, Kind.Complex128]
      = false) :
    Comp.Mul D op xe ye = .ok (D.invalidBinaryExpr op xe' ye') := by
  simp [Comp.Mul, hu, hcat]

/-- C4, at a `bool` identifier times the constant 1: the marker, although the
other operand is the literal 1. -/
theorem Mul_invalid_category_witness :
    isLiteralNumber (constInt 1).Value 1 = true ∧
    Comp.Mul specDeps .MUL (identBool "a") (constInt 1)
      = .ok (specDeps.invalidBinaryExpr .MUL (identBool "a") (constInt 1)) :=
  ⟨rfl, Mul_invalid_category specDeps .MUL (identBool "a") (constInt 1) _ _ rfl rfl⟩

/-- Every one of the fifteen machine kinds is in a numeric category. -/
theorem isCategory_of_machineKind (K : Kind) (hK : K ∈ machineKinds) :
    isCategory K [Kind.Int, Kind.Uint, Kind.Float64, Kind.Complex128] = true := by
  revert K
  decide

/-- C5. One operand a constant of machine kind `K` other than the literal 1, the
other a closure of kind `K`, the left operand's static type of kind `K`:
`Comp.Mul` returns an `Expr` of the left operand's type whose closure, on
every environment, calls the dynamic operand's closure once and yields the
native product at the width of `K` of its value and the constant, the constant
on the side it was written on. -/
theorem Mul_constant_product (D : Deps P Env) (op : Token) (x c : Expr P Env)
    (K : Kind) (hK : K ∈ machineKinds)
    (hx : x.Const = false) (hc : c.Const = true) :
    (∀ x' c', D.toSameFuncType op x c = .ok (x', c') →
      x'.Typ.Kind = K → x'.Fun.funcKind = some K → c'.Value.constKind = some K →
      isLiteralNumber c'.Value 1 = false →
      ∃ e, Comp.Mul D op x c = .ok e ∧ e.Typ = x'.Typ ∧ e.Const = false ∧
        e.Fun.funcKind = some K ∧
        ∀ env, ∃ a env1 r, x'.Fun.call env = some (a, env1) ∧ a.constKind = some K ∧
          nativeMul a c'.Value = some r ∧ r.constKind = some K ∧
          e.Fun.call env = some (r, env1)) ∧
    (∀ c' x', D.toSameFuncType op c x = .ok (c', x') →
      c'.Typ.Kind = K → x'.Fun.funcKind = some K → c'.Value.constKind = some K →
      isLiteralNumber c'.Value 1 = false →
      ∃ e, Comp.Mul D op c x = .ok e ∧ e.Typ = c'.Typ ∧ e.Const = false ∧
        e.Fun.funcKind = some K ∧
        ∀ env, ∃ b env1 r, x'.Fun.call env = some (b, env1) ∧ b.constKind = some K ∧
          nativeMul c'.Value b = some r ∧ r.constKind = some K ∧
          e.Fun.call env = some (r, env1)) := by
  have hcatK := isCategory_of_machineKind K hK
  constructor
  · intro x' c' hu ht hf hv h1
    obtain ⟨xt, xv, xf⟩ := x'
    obtain ⟨ct, cv, cf⟩ := c'
    have hf' := I.funcKind_inv xf K hf
    have hv' := I.constKind_inv cv K hv
    have hcat : isCategory xt.Kind [Kind.Int, Kind.Uint, Kind.Float64, Kind.Complex128]
        = true := by
      have : xt.Kind = K := ht
      rw [this]; exact hcatK
    cases K <;> first
      | (exfalso; revert hK; decide)
      | (obtain ⟨f, rfl⟩ := hf'
         obtain ⟨a, rfl⟩ := hv'
         simp only [Comp.Mul, hu, hx, hc, hcat, h1, Bool.not_true, Bool.false_eq_true,
           if_false, if_true, show (false == true) = false from rfl]
         exact ⟨_, rfl, rfl, rfl, rfl, fun env => ⟨_, _, _, rfl, rfl, rfl, rfl, rfl⟩⟩)
  · intro c' x' hu ht hf hv h1
    obtain ⟨xt, xv, xf⟩ := x'
    obtain ⟨ct, cv, cf⟩ := c'
    have hf' := I.funcKind_inv xf K hf
    have hv' := I.constKind_inv cv K hv
    have hcat : isCategory ct.Kind [Kind.Int, Kind.Uint, Kind.Float64, Kind.Complex128]
        = true := by
      have : ct.Kind = K := ht
      rw [this]; exact hcatK
    cases K <;> first
      | (exfalso; revert hK; decide)
      | (obtain ⟨f, rfl⟩ := hf'
         obtain ⟨a, rfl⟩ := hv'
         simp only [Comp.Mul, hu, hx, hc, hcat, h1, Bool.not_true, Bool.false_eq_true,
           if_false, if_true, show (true == false) = false from rfl]
         exact ⟨_, rfl, rfl, rfl, rfl, fun env => ⟨_, _, _, rfl, rfl, rfl, rfl, rfl⟩⟩)

/-- C5, at `a * 100` and `100 * a` with `a` an `int8` identifier bound to 6: the
closure yields `int8` 88, which is 600 reduced to 8 bits. -/
theorem Mul_constant_product_witness :
    (∃ e, Comp.Mul specDeps .MUL (identInt8 "a") (constInt8 100) = .ok e ∧
      e.Fun.call Binds.ab = some (.int8 88, Binds.ab)) ∧
    (∃ e, Comp.Mul specDeps .MUL (constInt8 100) (identInt8 "a") = .ok e ∧
      e.Fun.call Binds.ab = some (.int8 88, Binds.ab)) := by
  have h := Mul_constant_product specDeps .MUL (identInt8 "a") (constInt8 100) .Int8
    (by decide) rfl rfl
  constructor
  · obtain ⟨e, he, _, _, _, hcall⟩ := h.1 _ _ rfl rfl rfl rfl rfl
    obtain ⟨a, env1, r, h1, _, h2, _, h3⟩ := hcall Binds.ab
    refine ⟨e, he, ?_⟩
    have ha : a = .int8 6 ∧ env1 = Binds.ab := by
      have : some (a, env1) = some (I.int8 6, Binds.ab) := h1.symm.trans rfl
      simpa using this
    obtain ⟨rfl, rfl⟩ := ha
    have hr : r = .int8 88 := by
      have : some r = some (I.int8 88) := h2.symm.trans rfl
      simpa using this
    rw [h3, hr]
  · obtain ⟨e, he, _, _, _, hcall⟩ := h.2 _ _ rfl rfl rfl rfl rfl
    obtain ⟨a, env1, r, h1, _, h2, _, h3⟩ := hcall Binds.ab
    refine ⟨e, he, ?_⟩
    have ha : a = .int8 6 ∧ env1 = Binds.ab := by
      have : some (a, env1) = some (I.int8 6, Binds.ab) := h1.symm.trans rfl
      simpa using this
    obtain ⟨rfl, rfl⟩ := ha
    have hr : r = .int8 88 := by
      have : some r = some (I.int8 88) := h2.symm.trans rfl
      simpa using this
    rw [h3, hr]

/-- C6. Two constant operands of one numeric machine kind `K`. `Comp.Mul`
multiplies them through their closures, the ones `EvalConst` is later invoked
on: when each operand, as unification leaves it, carries its constant of kind
`K` and a closure of kind `K` that yields that constant and leaves the
environment as it is, `Comp.Mul` returns an `Expr` whose closure yields, on
every environment, the native product of the two constants at the width of
`K`. For the integer kinds that product is the mathematical product reduced
modulo `2^w`, in two's complement for the signed ones. -/
theorem Mul_constants (D : Deps P Env) (op : Token) (xe ye xe' ye' : Expr P Env)
    (K : Kind) (hK : K ∈ machineKinds)
    (hxc : xe.Const = true) (hyc : ye.Const = true)
    (hu : D.toSameFuncType op xe ye = .ok (xe', ye'))
    (hcat : isCategory xe'.Typ.Kind [Kind.Int, Kind.Uint, Kind.Float64, Kind.Complex128]
      = true)
    (hxv : xe'.Value.constKind = some K) (hyv : ye'.Value.constKind = some K)
    (hx : xe'.Fun.funcKind = some K) (hy : ye'.Fun.funcKind = some K)
    (hcx : ∀ env, xe'.Fun.call env = some (xe'.Value, env))
    (hcy : ∀ env, ye'.Fun.call env = some (ye'.Value, env)) :
    (∃ e c, Comp.Mul D op xe ye = .ok e ∧ e.Typ = xe'.Typ ∧
      nativeMul xe'.Value ye'.Value = some c ∧ c.constKind = some K ∧
      ∀ env, e.Fun.call env = some (c, env)) ∧
    (∀ w n, 0 < w → (2 : Int) ^ w ∣ wrapSigned w n - n ∧
      -(2 : Int) ^ (w - 1) ≤ wrapSigned w n ∧ wrapSigned w n < 2 ^ (w - 1)) ∧
    (∀ w n, wrapUnsigned w n ≡ n [MOD 2 ^ w] ∧ wrapUnsigned w n < 2 ^ w) := by
  refine ⟨?_, fun w n hw => ⟨wrapSigned_dvd w n, wrapSigned_range w hw n⟩,
    fun w n => ⟨wrapUnsigned_modEq w n, wrapUnsigned_lt w n⟩⟩
  obtain ⟨xt, xv, xf⟩ := xe'
  obtain ⟨yt, yv, yf⟩ := ye'
  have hx' := I.funcKind_inv xf K hx
  have hy' := I.funcKind_inv yf K hy
  have hxv' := I.constKind_inv xv K hxv
  have hyv' := I.constKind_inv yv K hyv
  cases K <;> first
    | (exfalso; revert hK; decide)
    | (obtain ⟨f, rfl⟩ := hx'
       obtain ⟨g, rfl⟩ := hy'
       obtain ⟨a, rfl⟩ := hxv'
       obtain ⟨b, rfl⟩ := hyv'
       simp only [Comp.Mul, hu, hxc, hyc, hcat, Bool.not_true, Bool.false_eq_true,
         if_false, beq_self_eq_true, if_true]
       refine ⟨_, _, rfl, rfl, rfl, rfl, fun env => ?_⟩
       have h1 := hcx env
       have h2 := hcy env
       simp only [I.call, Option.some.injEq, Prod.mk.injEq] at h1 h2
       obtain ⟨h1a, h1b⟩ := h1
       obtain ⟨h2a, h2b⟩ := h2
       injection h1a with h1a
       injection h2a with h2a
       simp only [Except.map, ExprFun, I.call, I.assertFuncInt, I.assertFuncInt8,
         I.assertFuncInt16, I.assertFuncInt32, I.assertFuncInt64, I.assertFuncUint,
         I.assertFuncUint8, I.assertFuncUint16, I.assertFuncUint32, I.assertFuncUint64,
         I.assertFuncUintptr, I.assertFuncFloat32, I.assertFuncFloat64,
         I.assertFuncComplex64, I.assertFuncComplex128, h1b, h2b, h1a, h2a]
       all_goals rfl)

/-- C6, at the `int32` constants 6 and 7, and 65536 and 65536, each carrying a
closure that yields it: the compiled closure yields `int32` 42, and 0, which
is `2^32` reduced to 32 bits, on every environment. -/
theorem Mul_constants_witness :
    (∃ e, Comp.Mul specDeps .MUL (constFunInt32 6) (constFunInt32 7) = .ok e ∧
      e.Typ = RType.int32 ∧ ∀ env, e.Fun.call env = some (.int32 42, env)) ∧
    (∃ e, Comp.Mul specDeps .MUL (constFunInt32 65536) (constFunInt32 65536) = .ok e ∧
      e.Typ = RType.int32 ∧ ∀ env, e.Fun.call env = some (.int32 0, env)) := by
  constructor
  · obtain ⟨e, c, he, ht, hc, _, hcall⟩ :=
      (Mul_constants specDeps .MUL (constFunInt32 6) (constFunInt32 7)
        (constFunInt32 6) (constFunInt32 7) .Int32 (by decide) rfl rfl rfl rfl
        rfl rfl rfl rfl (fun _ => rfl) (fun _ => rfl)).1
    have h42 : c = .int32 42 := by
      have : some c = some (I.int32 42) := hc.symm.trans rfl
      simpa using this
    exact ⟨e, he, ht, fun env => by rw [hcall env, h42]⟩
  · obtain ⟨e, c, he, ht, hc, _, hcall⟩ :=
      (Mul_constants specDeps .MUL (constFunInt32 65536) (constFunInt32 65536)
        (constFunInt32 65536) (constFunInt32 65536) .Int32 (by decide) rfl rfl rfl rfl
        rfl rfl rfl rfl (fun _ => rfl) (fun _ => rfl)).1
    have h0 : c = .int32 0 := by
      have : some c = some (I.int32 0) := hc.symm.trans rfl
      simpa using this
    exact ⟨e, he, ht, fun env => by rw [hcall env, h0]⟩

/-- A mapped result that is a value comes from a value. -/
theorem Except.map_ok_inv {ε α β : Type} {f : α → β} {x : Except ε α} {b : β}
    (h : Except.map f x = .ok b) : ∃ a, x = .ok a ∧ f a = b := by
  cases x with
  | error err => simp [Except.map] at h
  | ok a => exact ⟨a, rfl, by simpa [Except.map] using h⟩

/-- The closure that a kind-consistent operand carries has the kind of its
static type. -/
theorem Expr.kindConsistent_fun (e : Expr P Env) (h : e.kindConsistent = true)
    (hn : e.Fun.isNil = false) : e.Fun.funcKind = some e.Typ.Kind := by
  unfold Expr.kindConsistent at h
  split at h
  · simp [hn] at h
    exact h.2
  · simpa using h

/-- C7. `Comp.Mul` preserves the `Expr` invariant. When unification leaves the
operands with one static type, each constant or not as it was, and what each
carries has the machine kind of that type, every `Expr` that `Comp.Mul`
returns other than the invalid marker is non-constant, has that static type,
and carries a closure whose machine kind is the kind of that type. -/
theorem Mul_preserves_invariant (D : Deps P Env) (op : Token) (xe ye xe' ye' e : Expr P Env)
    (hu : D.toSameFuncType op xe ye = .ok (xe', ye'))
    (hcx : xe'.Const = xe.Const) (hcy : ye'.Const = ye.Const)
    (hty : xe'.Typ = ye'.Typ)
    (hx : xe'.kindConsistent = true) (hy : ye'.kindConsistent = true)
    (he : Comp.Mul D op xe ye = .ok e) (hne : e ≠ D.invalidBinaryExpr op xe' ye') :
    e.Const = false ∧ e.Typ = xe'.Typ ∧ e.Fun.funcKind = some e.Typ.Kind := by
  obtain ⟨xt, xv, xf⟩ := xe'
  obtain ⟨yt, yv, yf⟩ := ye'
  have hty' : xt = yt := hty
  subst hty'
  by_cases hcat : isCategory xt.Kind [Kind.Int, Kind.Uint, Kind.Float64, Kind.Complex128]
      = true
  swap
  · simp [Comp.Mul, hu, hcat] at he
    exact absurd he.symm hne
  have hxf := Expr.kindConsistent_fun _ hx
  have hyf := Expr.kindConsistent_fun _ hy
  have hb1 : xe.Const = ye.Const → e.Const = false ∧ e.Typ = xt ∧
      e.Fun.funcKind = some e.Typ.Kind := by
    intro hxy
    have hb : (xe.Const == ye.Const) = true := by simp [hxy]
    simp only [Comp.Mul, hu, hb, hcat, Bool.not_true, Bool.false_eq_true, if_false,
      if_true] at he
    cases xf <;> first
      | exact absurd (Except.ok.inj he).symm hne
      | (obtain ⟨y, -, rfl⟩ := Except.map_ok_inv he
         exact ⟨rfl, rfl, hxf rfl⟩)
  cases hxc : xe.Const <;> cases hyc : ye.Const
  · exact hb1 (hxc.trans hyc.symm)
  · simp only [Comp.Mul, hu, hxc, hyc, hcat, Bool.not_true, Bool.false_eq_true,
      if_false, if_true, show (false == true) = false from rfl] at he
    cases hlit : isLiteralNumber yv 1
    · simp only [hlit, Bool.false_eq_true, if_false] at he
      cases xf <;> first
        | exact absurd (Except.ok.inj he).symm hne
        | (obtain ⟨y, -, rfl⟩ := Except.map_ok_inv he
           exact ⟨rfl, rfl, hxf rfl⟩)
    · simp only [hlit, if_true, Except.ok.injEq] at he
      subst he
      have hc : Expr.Const (⟨xt, xv, xf⟩ : Expr P Env) = false := hcx.trans hxc
      refine ⟨hc, rfl, ?_⟩
      unfold Expr.kindConsistent at hx
      rw [hc] at hx
      simpa using hx
  · simp only [Comp.Mul, hu, hxc, hyc, hcat, Bool.not_true, Bool.false_eq_true,
      if_false, if_true, show (true == false) = false from rfl] at he
    cases hlit : isLiteralNumber xv 1
    · simp only [hlit, Bool.false_eq_true, if_false] at he
      cases yf <;> first
        | exact absurd (Except.ok.inj he).symm hne
        | (obtain ⟨y, -, rfl⟩ := Except.map_ok_inv he
           exact ⟨rfl, rfl, hyf rfl⟩)
    · simp only [hlit, if_true, Except.ok.injEq] at he
      subst he
      have hc : Expr.Const (⟨xt, yv, yf⟩ : Expr P Env) = false := hcy.trans hyc
      refine ⟨hc, rfl, ?_⟩
      unfold Expr.kindConsistent at hy
      rw [hc] at hy
      simpa using hy
  · exact hb1 (hxc.trans hyc.symm)

/-- C7, at `a * b` with `a` and `b` two `int32` identifiers: the result is not
the marker, is non-constant, has type `int32` and carries an `int32` closure. -/
theorem Mul_preserves_invariant_witness :
    ∃ e, Comp.Mul specDeps .MUL (identInt32 "a") (identInt32 "b") = .ok e ∧
      e ≠ specDeps.invalidBinaryExpr .MUL (identInt32 "a") (identInt32 "b") ∧
      e.Const = false ∧ e.Typ = RType.int32 ∧ e.Fun.funcKind = some .Int32 := by
  have hne : ∀ e : Expr Platform.amd64 Binds, e.Typ = RType.int32 →
      e ≠ specDeps.invalidBinaryExpr .MUL (identInt32 "a") (identInt32 "b") := by
    intro e ht h
    have hk : e.Typ.Kind = Kind.Invalid := by rw [h]; rfl
    rw [ht] at hk
    exact absurd hk (by decide)
  refine ⟨_, rfl, hne _ rfl, ?_⟩
  exact Mul_preserves_invariant specDeps .MUL (identInt32 "a") (identInt32 "b")
    (identInt32 "a") (identInt32 "b") _ rfl rfl rfl rfl rfl rfl rfl (hne _ rfl)

/-- A constant that is the literal 1 is of one of the fifteen machine kinds. -/
theorem isLiteralNumber_constKind (v : I P Env) (n : Int) (h : isLiteralNumber v n = true) :
    ∃ K ∈ machineKinds, v.constKind = some K := by
  cases v <;> first
    | (refine ⟨_, ?_, rfl⟩; decide)
    | (exfalso; simp [isLiteralNumber] at h)

/-- Operands whose closures agree in machine kind, both constant or both not:
`Comp.Mul` returns the marker, or an `Expr` with a closure of a supported
kind. -/
theorem Mul_agree_same (D : Deps P Env) (op : Token) (xe ye xe' ye' : Expr P Env)
    (hu : D.toSameFuncType op xe ye = .ok (xe', ye'))
    (hc : xe.Const = ye.Const) (hk : xe'.Fun.funcKind = ye'.Fun.funcKind) :
    (Comp.Mul D op xe ye = .ok (D.invalidBinaryExpr op xe' ye') ∧
      (isCategory xe'.Typ.Kind [Kind.Int, Kind.Uint, Kind.Float64, Kind.Complex128] = false ∨
        ∀ K ∈ machineKinds, xe'.Fun.funcKind ≠ some K)) ∨
    (isCategory xe'.Typ.Kind [Kind.Int, Kind.Uint, Kind.Float64, Kind.Complex128] = true ∧
      ∃ K ∈ machineKinds, xe'.Fun.funcKind = some K ∧
        ∃ e, Comp.Mul D op xe ye = .ok e ∧ e.Fun.funcKind = some K) := by
  obtain ⟨xt, xv, xf⟩ := xe'
  obtain ⟨yt, yv, yf⟩ := ye'
  by_cases hcat : isCategory xt.Kind [Kind.Int, Kind.Uint, Kind.Float64, Kind.Complex128]
      = true
  swap
  · left
    simp only [Bool.not_eq_true] at hcat
    exact ⟨by simp [Comp.Mul, hu, hcat], Or.inl hcat⟩
  have hb : (xe.Const == ye.Const) = true := by simp [hc]
  have hk' : yf.funcKind = xf.funcKind := hk.symm
  cases xf <;> first
    | (right
       have hy := I.funcKind_inv yf _ hk'
       obtain ⟨g, rfl⟩ := hy
       refine ⟨hcat, _, ?_, rfl, ?_⟩
       · decide
       · simp only [Comp.Mul, hu, hb, hcat, Bool.not_true, Bool.false_eq_true, if_false,
           if_true]
         exact ⟨_, rfl, rfl⟩)
    | (left
       refine ⟨?_, Or.inr ?_⟩
       · simp only [Comp.Mul, hu, hb, hcat, Bool.not_true, Bool.false_eq_true, if_false,
           if_true]
       · intro K hK h
         cases h
         revert hK
         decide)
    | (left
       refine ⟨?_, Or.inr ?_⟩
       · simp only [Comp.Mul, hu, hb, hcat, Bool.not_true, Bool.false_eq_true, if_false,
           if_true]
       · intro K hK h
         cases h)


/-- A non-constant left operand and a constant right one whose value has the
kind the left closure returns: `Comp.Mul` returns the marker, or an `Expr`
with a closure of a supported kind. -/
theorem Mul_agree_right (D : Deps P Env) (op : Token) (xe ye xe' ye' : Expr P Env)
    (hu : D.toSameFuncType op xe ye = .ok (xe', ye'))
    (hxc : xe.Const = false) (hyc : ye.Const = true)
    (hk : ye'.Value.constKind = xe'.Fun.funcKind) :
    (Comp.Mul D op xe ye = .ok (D.invalidBinaryExpr op xe' ye') ∧
      (isCategory xe'.Typ.Kind [Kind.Int, Kind.Uint, Kind.Float64, Kind.Complex128] = false ∨
        ∀ K ∈ machineKinds, xe'.Fun.funcKind ≠ some K)) ∨
    (isCategory xe'.Typ.Kind [Kind.Int, Kind.Uint, Kind.Float64, Kind.Complex128] = true ∧
      ∃ K ∈ machineKinds, xe'.Fun.funcKind = some K ∧
        ∃ e, Comp.Mul D op xe ye = .ok e ∧ e.Fun.funcKind = some K) := by
  obtain ⟨xt, xv, xf⟩ := xe'
  obtain ⟨yt, yv, yf⟩ := ye'
  by_cases hcat : isCategory xt.Kind [Kind.Int, Kind.Uint, Kind.Float64, Kind.Complex128]
      = true
  swap
  · left
    simp only [Bool.not_eq_true] at hcat
    exact ⟨by simp [Comp.Mul, hu, hcat], Or.inl hcat⟩
  have hk' : yv.constKind = xf.funcKind := hk
  cases hlit : isLiteralNumber yv 1
  swap
  · right
    obtain ⟨K, hK, hv⟩ := isLiteralNumber_constKind yv 1 hlit
    refine ⟨hcat, K, hK, hk'.symm.trans hv, ⟨xt, xv, xf⟩, ?_, hk'.symm.trans hv⟩
    simp [Comp.Mul, hu, hxc, hyc, hcat, hlit]
  cases xf <;> first
    | (right
       have hy := I.constKind_inv yv _ hk'
       obtain ⟨a, rfl⟩ := hy
       refine ⟨hcat, _, ?_, rfl, ?_⟩
       · decide
       · simp only [Comp.Mul, hu, hxc, hyc, hcat, hlit, Bool.not_true, Bool.false_eq_true,
           if_false, if_true, show (false == true) = false from rfl]
         exact ⟨_, rfl, rfl⟩)
    | (left
       refine ⟨?_, Or.inr ?_⟩
       · simp only [Comp.Mul, hu, hxc, hyc, hcat, hlit, Bool.not_true, Bool.false_eq_true,
           if_false, if_true, show (false == true) = false from rfl]
       · intro K hK h
         cases h
         revert hK
         decide)
    | (left
       refine ⟨?_, Or.inr ?_⟩
       · simp only [Comp.Mul, hu, hxc, hyc, hcat, hlit, Bool.not_true, Bool.false_eq_true,
           if_false, if_true, show (false == true) = false from rfl]
       · intro K hK h
         cases h)

/-- A constant left operand whose value has the kind the closure of the
non-constant right one returns: `Comp.Mul` returns the marker, or an `Expr`
with a closure of a supported kind. -/
theorem Mul_agree_left (D : Deps P Env) (op : Token) (xe ye xe' ye' : Expr P Env)
    (hu : D.toSameFuncType op xe ye = .ok (xe', ye'))
    (hxc : xe.Const = true) (hyc : ye.Const = false)
    (hk : xe'.Value.constKind = ye'.Fun.funcKind) :
    (Comp.Mul D op xe ye = .ok (D.invalidBinaryExpr op xe' ye') ∧
      (isCategory xe'.Typ.Kind [Kind.Int, Kind.Uint, Kind.Float64, Kind.Complex128] = false ∨
        ∀ K ∈ machineKinds, ye'.Fun.funcKind ≠ some K)) ∨
    (isCategory xe'.Typ.Kind [Kind.Int, Kind.Uint, Kind.Float64, Kind.Complex128] = true ∧
      ∃ K ∈ machineKinds, ye'.Fun.funcKind = some K ∧
        ∃ e, Comp.Mul D op xe ye = .ok e ∧ e.Fun.funcKind = some K) := by
  obtain ⟨xt, xv, xf⟩ := xe'
  obtain ⟨yt, yv, yf⟩ := ye'
  by_cases hcat : isCategory xt.Kind [Kind.Int, Kind.Uint, Kind.Float64, Kind.Complex128]
      = true
  swap
  · left
    simp only [Bool.not_eq_true] at hcat
    exact ⟨by simp [Comp.Mul, hu, hcat], Or.inl hcat⟩
  have hk' : xv.constKind = yf.funcKind := hk
  cases hlit : isLiteralNumber xv 1
  swap
  · right
    obtain ⟨K, hK, hv⟩ := isLiteralNumber_constKind xv 1 hlit
    refine ⟨hcat, K, hK, hk'.symm.trans hv, ⟨yt, yv, yf⟩, ?_, hk'.symm.trans hv⟩
    simp [Comp.Mul, hu, hxc, hyc, hcat, hlit]
  cases yf <;> first
    | (right
       have hy := I.constKind_inv xv _ hk'
       obtain ⟨a, rfl⟩ := hy
       refine ⟨hcat, _, ?_, rfl, ?_⟩
       · decide
       · simp only [Comp.Mul, hu, hxc, hyc, hcat, hlit, Bool.not_true, Bool.false_eq_true,
           if_false, if_true, show (true == false) = false from rfl]
         exact ⟨_, rfl, rfl⟩)
    | (left
       refine ⟨?_, Or.inr ?_⟩
       · simp only [Comp.Mul, hu, hxc, hyc, hcat, hlit, Bool.not_true, Bool.false_eq_true,
           if_false, if_true, show (true == false) = false from rfl]
       · intro K hK h
         cases h
         revert hK
         decide)
    | (left
       refine ⟨?_, Or.inr ?_⟩
       · simp only [Comp.Mul, hu, hxc, hyc, hcat, hlit, Bool.not_true, Bool.false_eq_true,
           if_false, if_true, show (true == false) = false from rfl]
       · intro K hK h
         cases h)

/-- C17. `Comp.Mul` on operands that agree in machine kind after unification.
The dispatched closure `d` is the left operand's when both operands are
constant, or neither is, or the right one alone is, and the right operand's
when the left one alone is constant; the operands agree when the two closures
have one kind, or the constant's value has the kind the dispatched closure
returns. Then no type assertion fails: `Comp.Mul` returns an `Expr`. It is the
invalid marker when the unified type is not numeric or `d` is not of one of
the fifteen kinds, and otherwise an `Expr` that carries a closure of the kind
of `d`; so, the marker carrying no such closure, the result is the marker
exactly in the first case. -/
theorem Mul_fault_free (D : Deps P Env) (op : Token) (xe ye xe' ye' : Expr P Env) (d : I P Env)
    (hu : D.toSameFuncType op xe ye = .ok (xe', ye'))
    (hagree :
      (xe.Const = ye.Const ∧ d = xe'.Fun ∧ xe'.Fun.funcKind = ye'.Fun.funcKind) ∨
      (xe.Const = false ∧ ye.Const = true ∧ d = xe'.Fun ∧
        ye'.Value.constKind = xe'.Fun.funcKind) ∨
      (xe.Const = true ∧ ye.Const = false ∧ d = ye'.Fun ∧
        xe'.Value.constKind = ye'.Fun.funcKind)) :
    (∃ e, Comp.Mul D op xe ye = .ok e) ∧
    ((isCategory xe'.Typ.Kind [Kind.Int, Kind.Uint, Kind.Float64, Kind.Complex128] = false ∨
        ∀ K ∈ machineKinds, d.funcKind ≠ some K) →
      Comp.Mul D op xe ye = .ok (D.invalidBinaryExpr op xe' ye')) ∧
    (isCategory xe'.Typ.Kind [Kind.Int, Kind.Uint, Kind.Float64, Kind.Complex128] = true →
      ∀ K ∈ machineKinds, d.funcKind = some K →
      ∃ e, Comp.Mul D op xe ye = .ok e ∧ e.Fun.funcKind = some K) ∧
    ((∀ K ∈ machineKinds, (D.invalidBinaryExpr op xe' ye').Fun.funcKind ≠ some K) →
      (Comp.Mul D op xe ye = .ok (D.invalidBinaryExpr op xe' ye') ↔
        (isCategory xe'.Typ.Kind [Kind.Int, Kind.Uint, Kind.Float64, Kind.Complex128] = false ∨
          ∀ K ∈ machineKinds, d.funcKind ≠ some K))) := by
  have key : (Comp.Mul D op xe ye = .ok (D.invalidBinaryExpr op xe' ye') ∧
      (isCategory xe'.Typ.Kind [Kind.Int, Kind.Uint, Kind.Float64, Kind.Complex128] = false ∨
        ∀ K ∈ machineKinds, d.funcKind ≠ some K)) ∨
      (isCategory xe'.Typ.Kind [Kind.Int, Kind.Uint, Kind.Float64, Kind.Complex128] = true ∧
        ∃ K ∈ machineKinds, d.funcKind = some K ∧
          ∃ e, Comp.Mul D op xe ye = .ok e ∧ e.Fun.funcKind = some K) := by
    rcases hagree with ⟨hc, rfl, hk⟩ | ⟨hxc, hyc, rfl, hk⟩ | ⟨hxc, hyc, rfl, hk⟩
    · exact Mul_agree_same D op xe ye xe' ye' hu hc hk
    · exact Mul_agree_right D op xe ye xe' ye' hu hxc hyc hk
    · exact Mul_agree_left D op xe ye xe' ye' hu hxc hyc hk
  rcases key with ⟨hm, hwhy⟩ | ⟨hcat, K, hK, hd, e, he, hek⟩
  · refine ⟨⟨_, hm⟩, fun _ => hm, ?_, fun _ => ⟨fun _ => hwhy, fun _ => hm⟩⟩
    intro hcat K hK hd
    rcases hwhy with h | h
    · rw [hcat] at h
      cases h
    · exact absurd hd (h K hK)
  · have hnot : ¬ (isCategory xe'.Typ.Kind
          [Kind.Int, Kind.Uint, Kind.Float64, Kind.Complex128] = false ∨
        ∀ K ∈ machineKinds, d.funcKind ≠ some K) := by
      rintro (h | h)
      · rw [hcat] at h
        cases h
      · exact h K hK hd
    refine ⟨⟨e, he⟩, fun h => absurd h hnot, ?_, fun hmark => ⟨fun hm => ?_, fun h => absurd h hnot⟩⟩
    · intro _ K1 _ hd1
      have hKK : K1 = K := Option.some.inj (hd1.symm.trans hd)
      subst hKK
      exact ⟨e, he, hek⟩
    · exfalso
      rw [hm] at he
      have hee := Except.ok.inj he
      rw [← hee] at hek
      exact hmark K hK hek

/-- C17, at three pairs of operands that agree: `a * b` with two `int32`
identifiers and `a * 100` with an `int8` identifier and an `int8` constant
compile to closures of kind `int32` and `int8`; two `bool` identifiers agree
too and give the marker, their type not being numeric. -/
theorem Mul_fault_free_witness :
    (∃ e, Comp.Mul specDeps .MUL (identInt32 "a") (identInt32 "b") = .ok e ∧
      e.Fun.funcKind = some .Int32) ∧
    (∃ e, Comp.Mul specDeps .MUL (identInt8 "a") (constInt8 100) = .ok e ∧
      e.Fun.funcKind = some .Int8) ∧
    Comp.Mul specDeps .MUL (identBool "a") (identBool "b")
      = .ok (specDeps.invalidBinaryExpr .MUL (identBool "a") (identBool "b")) :=
  ⟨(Mul_fault_free specDeps .MUL (identInt32 "a") (identInt32 "b") (identInt32 "a")
      (identInt32 "b") (identInt32 "a").Fun rfl (Or.inl ⟨rfl, rfl, rfl⟩)).2.2.1 rfl .Int32
      (by decide) rfl,
   (Mul_fault_free specDeps .MUL (identInt8 "a") (constInt8 100) (identInt8 "a")
      (constInt8 100) (identInt8 "a").Fun rfl (Or.inr (Or.inl ⟨rfl, rfl, rfl, rfl⟩))).2.2.1 rfl
      .Int8 (by decide) rfl,
   (Mul_fault_free specDeps .MUL (identBool "a") (identBool "b") (identBool "a")
      (identBool "b") (identBool "a").Fun rfl (Or.inl ⟨rfl, rfl, rfl⟩)).2.1 (Or.inl rfl)⟩

/-- C19. One evaluation of a closure that `Comp.Mul` built is one call of each
non-constant operand's closure, the left one first. For two non-constant
operands the closure calls the left closure on the `Env` it is given, the
right closure on the `Env` the left call leaves, and leaves the `Env` the
right call leaves. With one constant operand other than the literal 1 it calls
the other operand's closure on the `Env` it is given, multiplies by the
constant's value as `Comp.Mul` read it, and leaves the `Env` that one call
leaves: a closure the constant carries is not called. -/
theorem Mul_calls_once_in_order (D : Deps P Env) (op : Token) (xe ye xe' ye' e : Expr P Env)
    (hu : D.toSameFuncType op xe ye = .ok (xe', ye'))
    (he : Comp.Mul D op xe ye = .ok e) (hne : e ≠ D.invalidBinaryExpr op xe' ye') :
    (xe.Const = false → ye.Const = false →
      ∀ env, ∃ a env1 b env2 c,
        xe'.Fun.call env = some (a, env1) ∧ ye'.Fun.call env1 = some (b, env2) ∧
        nativeMul a b = some c ∧ e.Fun.call env = some (c, env2)) ∧
    (xe.Const = false → ye.Const = true → isLiteralNumber ye'.Value 1 = false →
      ∀ env, ∃ a env1 c,
        xe'.Fun.call env = some (a, env1) ∧
        nativeMul a ye'.Value = some c ∧ e.Fun.call env = some (c, env1)) ∧
    (xe.Const = true → ye.Const = false → isLiteralNumber xe'.Value 1 = false →
      ∀ env, ∃ b env1 c,
        ye'.Fun.call env = some (b, env1) ∧
        nativeMul xe'.Value b = some c ∧ e.Fun.call env = some (c, env1)) := by
  obtain ⟨xt, xv, xf⟩ := xe'
  obtain ⟨yt, yv, yf⟩ := ye'
  by_cases hcat : isCategory xt.Kind [Kind.Int, Kind.Uint, Kind.Float64, Kind.Complex128]
      = true
  swap
  · simp [Comp.Mul, hu, hcat] at he
    exact absurd he.symm hne
  refine ⟨?_, ?_, ?_⟩
  · intro hxc hyc
    simp only [Comp.Mul, hu, hxc, hyc, hcat, Bool.not_true, Bool.false_eq_true, if_false,
      beq_self_eq_true, if_true] at he
    cases xf <;> first
      | exact absurd (Except.ok.inj he).symm hne
      | (obtain ⟨y, hy, rfl⟩ := Except.map_ok_inv he
         cases yf <;> first
           | (cases hy
              exact fun env => ⟨_, _, _, _, _, rfl, rfl, rfl, rfl⟩)
           | cases hy)
  · intro hxc hyc hlit
    simp only [Comp.Mul, hu, hxc, hyc, hcat, hlit, Bool.not_true, Bool.false_eq_true,
      if_false, if_true, show (false == true) = false from rfl] at he
    cases xf <;> first
      | exact absurd (Except.ok.inj he).symm hne
      | (obtain ⟨y, hy, rfl⟩ := Except.map_ok_inv he
         cases yv <;> first
           | (cases hy
              exact fun env => ⟨_, _, _, rfl, rfl, rfl⟩)
           | cases hy)
  · intro hxc hyc hlit
    simp only [Comp.Mul, hu, hxc, hyc, hcat, hlit, Bool.not_true, Bool.false_eq_true,
      if_false, if_true, show (true == false) = false from rfl] at he
    cases yf <;> first
      | exact absurd (Except.ok.inj he).symm hne
      | (obtain ⟨x, hx, rfl⟩ := Except.map_ok_inv he
         cases xv <;> first
           | (cases hx
              exact fun env => ⟨_, _, _, rfl, rfl, rfl⟩)
           | cases hx)


/-- C19, on an environment that records the calls made on it: one evaluation
of `a * b` calls `a`, then `b`, once each; one evaluation of `a * 7` and of
`6 * b` calls the one non-constant operand once, and not the closure the
constant carries. -/
theorem Mul_calls_once_in_order_witness :
    (∃ e, Comp.Mul specDeps .MUL (calledInt32 "a" 6) (calledInt32 "b" 7) = .ok e ∧
      e.Fun.call [] = some (.int32 42, ["a", "b"])) ∧
    (∃ e, Comp.Mul specDeps .MUL (calledInt32 "a" 6) (calledConstInt32 7) = .ok e ∧
      e.Fun.call [] = some (.int32 42, ["a"])) ∧
    (∃ e, Comp.Mul specDeps .MUL (calledConstInt32 6) (calledInt32 "b" 7) = .ok e ∧
      e.Fun.call [] = some (.int32 42, ["b"])) := by
  have hne : ∀ (e x y : Expr Platform.amd64 Calls), e.Typ = RType.int32 →
      e ≠ specDeps.invalidBinaryExpr .MUL x y := by
    intro e x y ht h
    have hk : e.Typ.Kind = Kind.Invalid := by rw [h]; rfl
    rw [ht] at hk
    exact absurd hk (by decide)
  refine ⟨⟨_, rfl, ?_⟩, ⟨_, rfl, ?_⟩, ⟨_, rfl, ?_⟩⟩
  · obtain ⟨a, env1, b, env2, c, h1, h2, h3, h4⟩ :=
      (Mul_calls_once_in_order specDeps .MUL (calledInt32 "a" 6) (calledInt32 "b" 7)
        (calledInt32 "a" 6) (calledInt32 "b" 7) _ rfl rfl (hne _ _ _ rfl)).1 rfl rfl []
    have ha : a = .int32 6 ∧ env1 = ["a"] := by
      have : some (a, env1) = some (I.int32 6, ["a"]) := h1.symm.trans rfl
      simpa using this
    obtain ⟨rfl, rfl⟩ := ha
    have hb : b = .int32 7 ∧ env2 = ["a", "b"] := by
      have : some (b, env2) = some (I.int32 7, ["a", "b"]) := h2.symm.trans rfl
      simpa using this
    obtain ⟨rfl, rfl⟩ := hb
    have hc : c = .int32 42 := by
      have : some c = some (I.int32 42) := h3.symm.trans rfl
      simpa using this
    rw [h4, hc]
  · obtain ⟨a, env1, c, h1, h3, h4⟩ :=
      (Mul_calls_once_in_order specDeps .MUL (calledInt32 "a" 6) (calledConstInt32 7)
        (calledInt32 "a" 6) (calledConstInt32 7) _ rfl rfl (hne _ _ _ rfl)).2.1 rfl rfl rfl []
    have ha : a = .int32 6 ∧ env1 = ["a"] := by
      have : some (a, env1) = some (I.int32 6, ["a"]) := h1.symm.trans rfl
      simpa using this
    obtain ⟨rfl, rfl⟩ := ha
    have hc : c = .int32 42 := by
      have : some c = some (I.int32 42) := h3.symm.trans rfl
      simpa using this
    rw [h4, hc]
  · obtain ⟨b, env1, c, h1, h3, h4⟩ :=
      (Mul_calls_once_in_order specDeps .MUL (calledConstInt32 6) (calledInt32 "b" 7)
        (calledConstInt32 6) (calledInt32 "b" 7) _ rfl rfl (hne _ _ _ rfl)).2.2 rfl rfl rfl []
    have hb : b = .int32 7 ∧ env1 = ["b"] := by
      have : some (b, env1) = some (I.int32 7, ["b"]) := h1.symm.trans rfl
      simpa using this
    obtain ⟨rfl, rfl⟩ := hb
    have hc : c = .int32 42 := by
      have : some c = some (I.int32 42) := h3.symm.trans rfl
      simpa using this
    rw [h4, hc]

end MulTheorems

/-! ## Theorems: the statement executor -/

section ExecutorTheorems

variable {Env σ : Type} (R : Runtime Env σ)

/-- Sequencing after a call that returned. -/
theorem Exec.bind_returned {α β : Type} (m : Exec σ α) (f : α → Exec σ β) (st st1 : σ) (a : α)
    (h : m st = (.returned a, st1)) : m.bind f st = f a st1 := by
  simp [Exec.bind, h]

/-- Sequencing after a call that panicked. -/
theorem Exec.bind_panicked {α β : Type} (m : Exec σ α) (f : α → Exec σ β) (st st1 : σ)
    (p : Panic) (h : m st = (.panicked p, st1)) : m.bind f st = (.panicked p, st1) := by
  simp [Exec.bind, h]

/-- C8. `Env.evalReturn` never returns normally. When the evaluation of the
results returns, it panics with `eReturn`: for a single result expression the
signal carries the packed values of `evalExpr` on it, and otherwise the
values of the result expressions, each evaluated on its own by `evalExpr1`,
in source order. A panic raised while a result is evaluated goes through, so
nothing else can come out. -/
theorem evalReturn_raises (env : Env) (node : ReturnStmt) (st : σ) :
    (∀ r, (evalReturn R env node st).1 ≠ .returned r) ∧
    (∀ e, node.Results = [e] → ∀ v vs st1,
      R.evalExpr env e st = (.returned (v, vs), st1) →
      evalReturn R env node st = (.panicked (.eReturn (R.PackValues v vs)), st1)) ∧
    (node.Results.length ≠ 1 → ∀ rets st1,
      evalExprs R env node.Results st = (.returned rets, st1) →
      evalReturn R env node st = (.panicked (.eReturn rets), st1)) ∧
    (∀ st0, evalExprs R env [] st0 = (.returned [], st0)) ∧
    (∀ e es st0 v st1 vs st2, R.evalExpr1 env e st0 = (.returned v, st1) →
      evalExprs R env es st1 = (.returned vs, st2) →
      evalExprs R env (e :: es) st0 = (.returned (v :: vs), st2)) := by
  obtain ⟨results⟩ := node
  refine ⟨?_, ?_, ?_, fun _ => rfl, ?_⟩
  · intro r
    match results with
    | [] => simp [evalReturn, evalExprs, Exec.bind, Exec.ret, Exec.panic]
    | [e] =>
      simp only [evalReturn, Exec.bind, Exec.panic]
      rcases h : R.evalExpr env e st with ⟨o, st1⟩
      cases o <;> simp
    | e1 :: e2 :: es =>
      simp only [evalReturn, Exec.bind, Exec.panic]
      rcases h : evalExprs R env (e1 :: e2 :: es) st with ⟨o, st1⟩
      cases o <;> simp
  · intro e he v vs st1 h
    simp only at he
    subst he
    simp [evalReturn, Exec.bind, Exec.panic, h]
  · intro hlen rets st1 h
    match results, hlen, h with
    | [], _, h => simp [evalReturn, Exec.bind, Exec.panic, h]
    | [e], hlen, _ => exact absurd rfl hlen
    | e1 :: e2 :: es, _, h => simp [evalReturn, Exec.bind, Exec.panic, h]
  · intro e es st0 v st1 vs st2 h1 h2
    simp [evalExprs, Exec.bind, Exec.ret, h1, h2]

/-- C8, in the recording runtime: `return f()` raises `eReturn` with the two
values of `f()`, and `return a, b` raises it with the values of `a` and `b`,
evaluated in that order. -/
theorem evalReturn_raises_witness :
    evalReturn Recording.runtime [] ⟨[⟨"f()"⟩]⟩ []
      = (.panicked (.eReturn [.int 1, .int 2]), ["evalExpr f()"]) ∧
    evalReturn Recording.runtime [] ⟨[⟨"a"⟩, ⟨"b"⟩]⟩ []
      = (.panicked (.eReturn [.string "a", .string "b"]), ["evalExpr1 a", "evalExpr1 b"]) := by
  have h := evalReturn_raises Recording.runtime [] ⟨[⟨"f()"⟩]⟩ []
  have h2 := evalReturn_raises Recording.runtime [] ⟨[⟨"a"⟩, ⟨"b"⟩]⟩ []
  constructor
  · exact h.2.1 ⟨"f()"⟩ rfl (.int 1) [.int 1, .int 2] ["evalExpr f()"] (by decide)
  · exact h2.2.2.1 (by decide) [.string "a", .string "b"] ["evalExpr1 a", "evalExpr1 b"]
      (by decide)

/-- C9. `Env.evalBranch` on `break` panics with `eBreak`, on `continue` with
`eContinue`; the signal's label is the name of the statement's label, or the
empty string when it has none. It evaluates nothing, the state is as it
was, and it does not return. -/
theorem evalBranch_signals (env : Env) (st : σ) :
    (∀ id, evalBranch R env ⟨.BREAK, some id⟩ st = (.panicked (.eBreak id.Name), st)) ∧
    evalBranch R env ⟨.BREAK, none⟩ st = (.panicked (.eBreak ""), st) ∧
    (∀ id, evalBranch R env ⟨.CONTINUE, some id⟩ st = (.panicked (.eContinue id.Name), st)) ∧
    evalBranch R env ⟨.CONTINUE, none⟩ st = (.panicked (.eContinue ""), st) ∧
    (∀ node, node.Tok = .BREAK ∨ node.Tok = .CONTINUE →
      ∀ r, (evalBranch R env node st).1 ≠ .returned r) := by
  refine ⟨fun _ => rfl, rfl, fun _ => rfl, rfl, ?_⟩
  rintro ⟨tok, label⟩ (h | h) r <;> simp only at h <;> subst h <;>
    simp [evalBranch, Exec.panic]

/-- C9, in the recording runtime: `break outer` and a bare `continue`. -/
theorem evalBranch_signals_witness :
    evalBranch Recording.runtime [] ⟨.BREAK, some ⟨"outer"⟩⟩ ["before"]
      = (.panicked (.eBreak "outer"), ["before"]) ∧
    evalBranch Recording.runtime [] ⟨.CONTINUE, none⟩ ["before"]
      = (.panicked (.eContinue ""), ["before"]) :=
  ⟨(evalBranch_signals Recording.runtime [] ["before"]).1 ⟨"outer"⟩,
   (evalBranch_signals Recording.runtime [] ["before"]).2.2.2.1⟩

/-- C10. The statement kinds outside scope end in `env.Errorf` and in nothing
else: `Env.evalBranch` on `goto`, and `Env.evalStatement` on a go statement
and on a labeled statement, are the call of `env.Errorf` on the state they
were given, and their result is its result. No evaluator runs on the call of
the go statement, or on the statement under the label. -/
theorem unimplemented_statements (env : Env) (st : σ) :
    (∀ label, evalBranch R env ⟨.GOTO, label⟩ st = R.Errorf env "unimplemented: goto" [] st) ∧
    (∀ call, evalStatement R env (.GoStmt call) st
      = R.Errorf env "unimplemented statement: %v <%v>"
          [.stmt (.GoStmt call), .typeOfStmt (.GoStmt call)] st) ∧
    (∀ label stmt, evalStatement R env (.LabeledStmt label stmt) st
      = R.Errorf env "unimplemented statement: %v <%v>"
          [.stmt (.LabeledStmt label stmt), .typeOfStmt (.LabeledStmt label stmt)] st) := by
  refine ⟨fun _ => rfl, fun _ => ?_, fun _ _ => ?_⟩
  · simp [evalStatement]
  · simp [evalStatement]

/-- C10, in the recording runtime: `goto`, `go f()` and `outer: return f()` each
leave one call in the record, that of `Errorf`; `f()` is not evaluated. -/
theorem unimplemented_statements_witness :
    evalBranch Recording.runtime [] ⟨.GOTO, some ⟨"outer"⟩⟩ []
      = (.panicked (.other "unimplemented: goto"), ["Errorf unimplemented: goto"]) ∧
    evalStatement Recording.runtime [] (.GoStmt ⟨"f()"⟩) []
      = (.panicked (.other "unimplemented statement: %v <%v>"),
         ["Errorf unimplemented statement: %v <%v>"]) ∧
    evalStatement Recording.runtime [] (.LabeledStmt ⟨"outer"⟩ (.ReturnStmt ⟨[⟨"f()"⟩]⟩)) []
      = (.panicked (.other "unimplemented statement: %v <%v>"),
         ["Errorf unimplemented statement: %v <%v>"]) := by
  have h := unimplemented_statements Recording.runtime [] []
  refine ⟨?_, ?_, ?_⟩
  · rw [h.1]; rfl
  · rw [h.2.1]; rfl
  · rw [h.2.2]; rfl

/-- The loop of `Env.evalStatements` over statements that all return: it ends
in the state the last one leaves, with the results of the last one, or with
the pair it started from when the list is empty. -/
theorem evalStatementsFrom_runEach (env : Env) (list : List Stmt) :
    ∀ (rets : Results) (st : σ) (rs : List Results) (st1 : σ),
      runEach R env list st = some (rs, st1) →
      evalStatementsFrom R env rets list st = (.returned (rs.getLast?.getD rets), st1) := by
  induction list with
  | nil =>
    intro rets st rs st1 h
    simp only [runEach, Option.some.injEq, Prod.mk.injEq] at h
    obtain ⟨rfl, rfl⟩ := h
    simp [evalStatementsFrom, Exec.ret]
  | cons s list ih =>
    intro rets st rs st1 h
    rcases hs : evalStatement R env s st with ⟨o, st0⟩
    cases o with
    | panicked p => simp [runEach, hs] at h
    | returned r =>
      simp only [runEach, hs, Option.map_eq_some', Prod.mk.injEq] at h
      obtain ⟨⟨rs1, st2⟩, hrest, rfl, rfl⟩ := h
      have := ih r st0 rs1 st2 hrest
      simp only [evalStatementsFrom, Exec.bind, hs, this]
      cases rs1 with
      | nil => simp
      | cons r1 rs2 => simp [List.getLast?_eq_getLast _ (List.cons_ne_nil r1 rs2)]

/-- C11. `Env.evalStatements` on the empty list returns `(None, nil)` and leaves
the state as it is. On a non-empty list whose statements all return, it
evaluates every statement once, in list order, in the one environment it was
given, each in the state the one before it left, and returns the pair that
the last statement returned, in the state the last statement left. -/
theorem evalStatements_last (env : Env) (st : σ) :
    evalStatements R env [] st = (.returned (R.None, []), st) ∧
    (∀ list rs st1, list ≠ [] → runEach R env list st = some (rs, st1) →
      ∃ r, rs.getLast? = some r ∧ rs.length = list.length ∧
        evalStatements R env list st = (.returned r, st1)) ∧
    (∀ pre s r st1 st2, runEach R env pre st = some (r, st1) →
      ∀ last, evalStatement R env s st1 = (.returned last, st2) →
      evalStatements R env (pre ++ [s]) st = (.returned last, st2)) := by
  have hlen : ∀ (list : List Stmt) (st : σ) rs st1, runEach R env list st = some (rs, st1) →
      rs.length = list.length := by
    intro list
    induction list with
    | nil =>
      intro st rs st1 h
      simp only [runEach, Option.some.injEq, Prod.mk.injEq] at h
      simp [← h.1]
    | cons s list ih =>
      intro st rs st1 h
      rcases hs : evalStatement R env s st with ⟨o, st0⟩
      cases o with
      | panicked p => simp [runEach, hs] at h
      | returned r =>
        simp only [runEach, hs, Option.map_eq_some', Prod.mk.injEq] at h
        obtain ⟨⟨rs1, st2⟩, hrest, rfl, rfl⟩ := h
        simp [ih st0 rs1 st2 hrest]
  have happ : ∀ (pre : List Stmt) (st : σ) rs st1 s last st2,
      runEach R env pre st = some (rs, st1) →
      evalStatement R env s st1 = (.returned last, st2) →
      runEach R env (pre ++ [s]) st = some (rs ++ [last], st2) := by
    intro pre
    induction pre with
    | nil =>
      intro st rs st1 s last st2 h hs
      simp only [runEach, Option.some.injEq, Prod.mk.injEq] at h
      obtain ⟨rfl, rfl⟩ := h
      simp [runEach, hs]
    | cons s0 pre ih =>
      intro st rs st1 s last st2 h hs
      rcases hs0 : evalStatement R env s0 st with ⟨o, st0⟩
      cases o with
      | panicked p => simp [runEach, hs0] at h
      | returned r =>
        simp only [runEach, hs0, Option.map_eq_some', Prod.mk.injEq] at h
        obtain ⟨⟨rs1, st3⟩, hrest, rfl, rfl⟩ := h
        simp [runEach, hs0, ih st0 rs1 st3 s last st2 hrest hs]
  refine ⟨by simp [evalStatements, evalStatementsFrom, Exec.ret], ?_, ?_⟩
  · intro list rs st1 hne h
    have hl := hlen list st rs st1 h
    have hrs : rs ≠ [] := by
      intro h0
      rw [h0] at hl
      exact hne (List.length_eq_zero.mp hl.symm)
    obtain ⟨r, hr⟩ : ∃ r, rs.getLast? = some r := by
      cases hg : rs.getLast? with
      | none => exact absurd (List.getLast?_eq_none_iff.mp hg) hrs
      | some r => exact ⟨r, rfl⟩
    refine ⟨r, hr, hl, ?_⟩
    have := evalStatementsFrom_runEach R env list (R.None, []) st rs st1 h
    simp only [evalStatements, this, hr, Option.getD_some]
  · intro pre s r st1 st2 h last hs
    have h2 := happ pre st r st1 s last st2 h hs
    have := evalStatementsFrom_runEach R env (pre ++ [s]) (R.None, []) st _ st2 h2
    simp only [evalStatements, this]
    simp

/-- C11, in the recording runtime: the statements `a` and `true` are evaluated
in that order, and the value of the second is returned. -/
theorem evalStatements_last_witness :
    evalStatements Recording.runtime [] [.ExprStmt ⟨"a"⟩, .ExprStmt ⟨"true"⟩] []
      = (.returned (.bool true, []), ["evalExpr a", "evalExpr true"]) := by
  obtain ⟨r, hr, _, he⟩ := (evalStatements_last Recording.runtime [] []).2.1
    [.ExprStmt ⟨"a"⟩, .ExprStmt ⟨"true"⟩] [(.string "a", []), (.bool true, [])]
    ["evalExpr a", "evalExpr true"] (by simp)
    (by simp [runEach, evalStatement, Recording.runtime, Recording.call, Recording.value])
  simp only [List.getLast?_cons_cons, List.getLast?_singleton, Option.some.injEq] at hr
  rw [he, ← hr]

/-- `Env.evalIf` without an init statement is its part after the init
statement, in the environment it was called on. -/
theorem evalIf_none (env : Env) (cond : AstExpr) (body : Option BlockStmt)
    (els : Option Stmt) :
    evalIf R env (.mk none cond body els) = evalIfRest R env cond body els := by
  rw [evalIf]
  rfl

/-- `Env.evalIf` with an init statement creates the environment `if {}`,
evaluates the init statement in it and, when that returns, goes on in it. -/
theorem evalIf_some (env : Env) (i : Stmt) (cond : AstExpr) (body : Option BlockStmt)
    (els : Option Stmt) (st : σ) :
    evalIf R env (.mk (some i) cond body els) st
      = ((evalStatement R (R.NewEnv env "if {}" st).1 i).bind fun _ =>
          evalIfRest R (R.NewEnv env "if {}" st).1 cond body els)
        (R.NewEnv env "if {}" st).2 := by
  rw [evalIf]
  simp only [Exec.bind, Exec.ret]
  rcases h : evalStatement R (R.NewEnv env "if {}" st).1 i (R.NewEnv env "if {}" st).2
    with ⟨o, st1⟩
  cases o <;> rfl

/-- The part of an if statement after its init statement, once the condition
has returned the value `c`. -/
theorem evalIfRest_of_cond (env : Env) (cond : AstExpr) (body : Option BlockStmt)
    (els : Option Stmt) (st st1 : σ) (c : Value) (vs : List Value)
    (h : R.Eval env cond st = (.returned (c, vs), st1)) :
    evalIfRest R env cond body els st =
      (if c.Kind ≠ Kind.Bool then
        (Exec.lift c.Interface).bind fun cf =>
          R.Errorf env "if: invalid condition type <%T> %#v, expecting <bool>"
            [.iface cf, .iface cf]
      else
        (Exec.lift c.Bool).bind fun b =>
          if b then evalBlock R env body
          else
            match els with
            | some e => evalStatement R env e
            | none => Exec.ret (R.Nil, [])) st1 := by
  unfold evalIfRest
  rw [Exec.bind, h]

/-- C13. When the condition of an if statement evaluates to a value that is not
a `bool`, `Env.evalIf` evaluates neither the body nor the else branch: it
evaluates `cond.Interface()` for the message and then calls `env.Errorf`, on
the state the condition left. When `cond.Interface()` returns, `evalIf` is
that call of `env.Errorf`. When it panics, `env.Errorf` is not reached and
`evalIf` raises the panic of `reflect`: so for the zero `reflect.Value`, whose
kind is `Invalid`, and for a value read from an unexported field.
`Interface()` returns on every other value. The same holds after an init
statement that returned. -/
theorem evalIf_condition_not_bool (env : Env) (cond : AstExpr) (body : Option BlockStmt)
    (els : Option Stmt) (st : σ) :
    (∀ c vs st1 cf, R.Eval env cond st = (.returned (c, vs), st1) →
      c.Kind ≠ Kind.Bool → c.Interface = .returned cf →
      evalIf R env (.mk none cond body els) st
        = R.Errorf env "if: invalid condition type <%T> %#v, expecting <bool>"
            [.iface cf, .iface cf] st1) ∧
    (∀ c vs st1 p, R.Eval env cond st = (.returned (c, vs), st1) →
      c.Kind ≠ Kind.Bool → c.Interface = .panicked p →
      evalIf R env (.mk none cond body els) st = (.panicked p, st1)) ∧
    (∀ vs st1, R.Eval env cond st = (.returned (.zero, vs), st1) →
      evalIf R env (.mk none cond body els) st
        = (.panicked (.other "reflect: call of reflect.Value.Interface on zero Value"),
            st1)) ∧
    (∀ v vs st1, R.Eval env cond st = (.returned (.unexported v, vs), st1) →
      v.Kind ≠ Kind.Bool →
      evalIf R env (.mk none cond body els) st
        = (.panicked (.other
            "reflect.Value.Interface: cannot return value obtained from unexported field or method"),
            st1)) ∧
    (∀ c : Value, c ≠ .zero → (∀ v, c ≠ .unexported v) → c.Interface = .returned c) ∧
    (∀ i r st0 c vs st1,
      evalStatement R (R.NewEnv env "if {}" st).1 i (R.NewEnv env "if {}" st).2
        = (.returned r, st0) →
      R.Eval (R.NewEnv env "if {}" st).1 cond st0 = (.returned (c, vs), st1) →
      c.Kind ≠ Kind.Bool →
      evalIf R env (.mk (some i) cond body els) st
        = (match c.Interface with
          | .returned cf =>
            R.Errorf (R.NewEnv env "if {}" st).1
              "if: invalid condition type <%T> %#v, expecting <bool>"
              [.iface cf, .iface cf] st1
          | .panicked p => (.panicked p, st1))) := by
  have hret : ∀ (e : Env) (s s1 : σ) (c : Value) (vs : List Value) (cf : Value),
      R.Eval e cond s = (.returned (c, vs), s1) → c.Kind ≠ Kind.Bool →
      c.Interface = .returned cf →
      evalIfRest R e cond body els s
        = R.Errorf e "if: invalid condition type <%T> %#v, expecting <bool>"
            [.iface cf, .iface cf] s1 := by
    intro e s s1 c vs cf h hk hi
    rw [evalIfRest_of_cond R e cond body els s s1 c vs h, if_pos hk]
    simp only [Exec.bind, Exec.lift, hi]
  have hpan : ∀ (e : Env) (s s1 : σ) (c : Value) (vs : List Value) (p : Panic),
      R.Eval e cond s = (.returned (c, vs), s1) → c.Kind ≠ Kind.Bool →
      c.Interface = .panicked p →
      evalIfRest R e cond body els s = (.panicked p, s1) := by
    intro e s s1 c vs p h hk hi
    rw [evalIfRest_of_cond R e cond body els s s1 c vs h, if_pos hk]
    simp only [Exec.bind, Exec.lift, hi]
  refine ⟨?_, ?_, ?_, ?_, ?_, ?_⟩
  · intro c vs st1 cf h hk hi
    rw [evalIf_none]
    exact hret env st st1 c vs cf h hk hi
  · intro c vs st1 p h hk hi
    rw [evalIf_none]
    exact hpan env st st1 c vs p h hk hi
  · intro vs st1 h
    rw [evalIf_none]
    exact hpan env st st1 .zero vs _ h (by decide) rfl
  · intro v vs st1 h hk
    rw [evalIf_none]
    exact hpan env st st1 (.unexported v) vs _ h hk rfl
  · intro c hz hu
    cases c <;> first | rfl | exact absurd rfl hz | exact absurd rfl (hu _)
  · intro i r st0 c vs st1 hi h hk
    rw [evalIf_some]
    simp only [Exec.bind, hi]
    cases hc : c.Interface with
    | returned cf => exact hret _ st0 st1 c vs cf h hk hc
    | panicked p => exact hpan _ st0 st1 c vs p h hk hc

/-- C13, in the recording runtime, at `if nil { a } else b`: the condition is the
zero `Value`; `evalIf` panics inside `reflect`, and the record holds the
evaluation of the condition and no call of `Errorf`. At
`if s.hidden { a } else b`, an `int` read from an unexported field: the other
panic of `reflect`, and no call of `Errorf` either. At `if x { a } else b`,
where `x` is a string: `Errorf`, and nothing after it. -/
theorem evalIf_condition_not_bool_witness :
    evalIf Recording.runtime []
        (.mk none ⟨"nil"⟩ (some (.mk [.ExprStmt ⟨"a"⟩])) (some (.ExprStmt ⟨"b"⟩))) []
      = (.panicked (.other "reflect: call of reflect.Value.Interface on zero Value"),
          ["Eval nil"]) ∧
    evalIf Recording.runtime []
        (.mk none ⟨"s.hidden"⟩ (some (.mk [.ExprStmt ⟨"a"⟩])) (some (.ExprStmt ⟨"b"⟩))) []
      = (.panicked (.other
          "reflect.Value.Interface: cannot return value obtained from unexported field or method"),
          ["Eval s.hidden"]) ∧
    evalIf Recording.runtime []
        (.mk none ⟨"x"⟩ (some (.mk [.ExprStmt ⟨"a"⟩])) (some (.ExprStmt ⟨"b"⟩))) []
      = (.panicked (.other "if: invalid condition type <%T> %#v, expecting <bool>"),
          ["Eval x", "Errorf if: invalid condition type <%T> %#v, expecting <bool>"]) := by
  refine ⟨?_, ?_, ?_⟩
  · exact (evalIf_condition_not_bool Recording.runtime [] ⟨"nil"⟩ _ _ []).2.2.1 []
      ["Eval nil"] (by decide)
  · exact (evalIf_condition_not_bool Recording.runtime [] ⟨"s.hidden"⟩ _ _ []).2.2.2.1
      (.int 7) [] ["Eval s.hidden"] (by decide) (by decide)
  · rw [(evalIf_condition_not_bool Recording.runtime [] ⟨"x"⟩ _ _ []).1 (.string "x") []
      ["Eval x"] (.string "x") (by decide) (by decide) rfl]
    rfl

/-- C14. `Env.evalSend` evaluates the channel operand first. When its value is
not of kind `Chan`, the rest is the call of `env.Errorf` on the state that
evaluation left: the value operand is not evaluated and nothing is sent. When
it is a channel, the value operand is evaluated once, in that state, the value
is sent on that channel once, and `(None, nil)` is returned. -/
theorem evalSend_channel (env : Env) (node : SendStmt) (st : σ) :
    (∀ channel st1, R.evalExpr1 env node.Chan st = (.returned channel, st1) →
      channel.Kind ≠ Kind.Chan →
      evalSend R env node st
        = R.Errorf env "<- invoked on non-channel: %v evaluated to %v <%v>"
            [.expr node.Chan, .value channel, .typeOfValue channel] st1) ∧
    (∀ channel st1 value st2 st3, R.evalExpr1 env node.Chan st = (.returned channel, st1) →
      channel.Kind = Kind.Chan →
      R.evalExpr1 env node.Value st1 = (.returned value, st2) →
      R.Send channel value st2 = (.returned (), st3) →
      evalSend R env node st = (.returned (R.None, []), st3)) := by
  constructor
  · intro channel st1 h hk
    simp only [evalSend, Exec.bind, h, if_pos hk]
  · intro channel st1 value st2 st3 h hk hv hs
    have hk' : ¬ channel.Kind ≠ Kind.Chan := fun hn => hn hk
    simp only [evalSend, Exec.bind, h, if_neg hk', hv, hs, Exec.ret]

/-- C14, in the recording runtime: `ch <- v` evaluates `ch`, then `v`, then
sends; `x <- v`, where `x` is a string, evaluates `x` and calls `Errorf`. -/
theorem evalSend_channel_witness :
    evalSend Recording.runtime [] ⟨⟨"ch"⟩, ⟨"v"⟩⟩ []
      = (.returned (.struct "struct {}{}", []), ["evalExpr1 ch", "evalExpr1 v", "Send"]) ∧
    evalSend Recording.runtime [] ⟨⟨"x"⟩, ⟨"v"⟩⟩ []
      = (.panicked (.other "<- invoked on non-channel: %v evaluated to %v <%v>"),
          ["evalExpr1 x", "Errorf <- invoked on non-channel: %v evaluated to %v <%v>"]) := by
  have h1 := (evalSend_channel Recording.runtime [] ⟨⟨"ch"⟩, ⟨"v"⟩⟩ []).2 (.chan 0)
    ["evalExpr1 ch"] (.string "v") ["evalExpr1 ch", "evalExpr1 v"]
    ["evalExpr1 ch", "evalExpr1 v", "Send"] (by decide) (by decide) (by decide) (by decide)
  have h2 := (evalSend_channel Recording.runtime [] ⟨⟨"x"⟩, ⟨"v"⟩⟩ []).1 (.string "x")
    ["evalExpr1 x"] (by decide) (by decide)
  exact ⟨h1, h2.trans rfl⟩

/-- C15. `Env.evalIncDec` is the compound assignment by `One`: on `++` it
evaluates the place of the operand and returns, with a nil value list, what
`assignPlace(place, ADD_ASSIGN, One)` returns; on `--` the same with
`SUB_ASSIGN`; a panic of either call goes through. On any other token it is
the call of `env.Errorf` on the state it was given: no place is evaluated and
nothing is assigned. -/
theorem evalIncDec_compound (env : Env) (x : AstExpr) (st : σ) :
    evalIncDec R env ⟨x, .INC⟩ st
      = ((R.evalPlace env x).bind fun place =>
          (R.assignPlace env place .ADD_ASSIGN R.One).bind fun v => Exec.ret (v, [])) st ∧
    evalIncDec R env ⟨x, .DEC⟩ st
      = ((R.evalPlace env x).bind fun place =>
          (R.assignPlace env place .SUB_ASSIGN R.One).bind fun v => Exec.ret (v, [])) st ∧
    (∀ place st1 v st2, R.evalPlace env x st = (.returned place, st1) →
      (R.assignPlace env place .ADD_ASSIGN R.One st1 = (.returned v, st2) →
        evalIncDec R env ⟨x, .INC⟩ st = (.returned (v, []), st2)) ∧
      (R.assignPlace env place .SUB_ASSIGN R.One st1 = (.returned v, st2) →
        evalIncDec R env ⟨x, .DEC⟩ st = (.returned (v, []), st2))) ∧
    (∀ tok, tok ≠ .INC → tok ≠ .DEC →
      evalIncDec R env ⟨x, tok⟩ st
        = R.Errorf env
            "unsupported *ast.IncDecStmt operation, expecting ++ or -- : %v <%v>"
            [.stmt (.IncDecStmt ⟨x, tok⟩), .typeOfStmt (.IncDecStmt ⟨x, tok⟩)] st) := by
  refine ⟨rfl, rfl, ?_, ?_⟩
  · intro place st1 v st2 hp
    constructor
    · intro ha
      simp only [evalIncDec, Exec.bind, hp, ha, Exec.ret]
    · intro ha
      simp only [evalIncDec, Exec.bind, hp, ha, Exec.ret]
  · intro tok h1 h2
    cases tok <;> first | exact absurd rfl h1 | exact absurd rfl h2 | rfl

/-- C15, in the recording runtime: `i++` evaluates the place of `i` and assigns
to it once; with the token `+` nothing but `Errorf` is called. -/
theorem evalIncDec_compound_witness :
    evalIncDec Recording.runtime [] ⟨⟨"i"⟩, .INC⟩ []
      = (.returned (.int 1, []), ["evalPlace i", "assignPlace i"]) ∧
    evalIncDec Recording.runtime [] ⟨⟨"i"⟩, .ADD⟩ []
      = (.panicked
          (.other "unsupported *ast.IncDecStmt operation, expecting ++ or -- : %v <%v>"),
          ["Errorf unsupported *ast.IncDecStmt operation, expecting ++ or -- : %v <%v>"]) := by
  have h := evalIncDec_compound Recording.runtime [] ⟨"i"⟩ []
  refine ⟨?_, ?_⟩
  · exact (h.2.2.1 (⟨"i"⟩ : AstExpr) ["evalPlace i"] (.int 1) ["evalPlace i", "assignPlace i"]
      (by simp [Recording.runtime, Recording.call])).1
      (by simp [Recording.runtime, Recording.call])
  · rw [h.2.2.2 .ADD (by decide) (by decide)]
    rfl

/-- The loop of `Env.evalStatements` stops at the first statement that panics:
the panic and the state of that statement are those of the loop. -/
theorem evalStatementsFrom_panicked (env : Env) (s : Stmt) (post : List Stmt) (p : Panic)
    (pre : List Stmt) :
    ∀ (rets : Results) (st : σ) (rs : List Results) (st1 st2 : σ),
      runEach R env pre st = some (rs, st1) →
      evalStatement R env s st1 = (.panicked p, st2) →
      evalStatementsFrom R env rets (pre ++ s :: post) st = (.panicked p, st2) := by
  induction pre with
  | nil =>
    intro rets st rs st1 st2 h hs
    simp only [runEach, Option.some.injEq, Prod.mk.injEq] at h
    obtain ⟨-, rfl⟩ := h
    simp only [List.nil_append, evalStatementsFrom, Exec.bind, hs]
  | cons s0 pre ih =>
    intro rets st rs st1 st2 h hs
    rcases hs0 : evalStatement R env s0 st with ⟨o, st0⟩
    cases o with
    | panicked q => simp [runEach, hs0] at h
    | returned r =>
      simp only [runEach, hs0, Option.map_eq_some', Prod.mk.injEq] at h
      obtain ⟨⟨rs1, st3⟩, hrest, -, rfl⟩ := h
      simp only [List.cons_append, evalStatementsFrom, Exec.bind, hs0]
      exact ih r st0 rs1 st3 st2 hrest hs

/-- C16. Signal propagation. `Env.evalStatements`, `Env.evalBlock` and
`Env.evalIf` intercept no panic, and so no `Break`, `Continue` or `Return`.
When the statements before the i-th return and the i-th panics with `p`, the
list, and the block made of it, panic with `p` in the state the i-th
statement left: no later statement is evaluated. When the chosen branch of an
if statement, or its init statement, panics with `p`, so does the if
statement, in the state the branch left. -/
theorem signals_propagate (env : Env) (st : σ) (p : Panic) :
    (∀ pre s post rs st1 st2, runEach R env pre st = some (rs, st1) →
      evalStatement R env s st1 = (.panicked p, st2) →
      evalStatements R env (pre ++ s :: post) st = (.panicked p, st2)) ∧
    (∀ pre s post rs st1 st2,
      runEach R (R.NewEnv env "{}" st).1 pre (R.NewEnv env "{}" st).2 = some (rs, st1) →
      evalStatement R (R.NewEnv env "{}" st).1 s st1 = (.panicked p, st2) →
      evalBlock R env (some (.mk (pre ++ s :: post))) st = (.panicked p, st2)) ∧
    (∀ cond body els vs st1 st2, R.Eval env cond st = (.returned (.bool true, vs), st1) →
      evalBlock R env body st1 = (.panicked p, st2) →
      evalIf R env (.mk none cond body els) st = (.panicked p, st2)) ∧
    (∀ cond body e vs st1 st2, R.Eval env cond st = (.returned (.bool false, vs), st1) →
      evalStatement R env e st1 = (.panicked p, st2) →
      evalIf R env (.mk none cond body (some e)) st = (.panicked p, st2)) ∧
    (∀ i cond body els st0,
      evalStatement R (R.NewEnv env "if {}" st).1 i (R.NewEnv env "if {}" st).2
        = (.panicked p, st0) →
      evalIf R env (.mk (some i) cond body els) st = (.panicked p, st0)) ∧
    (∀ i cond body els r st0 vs st1 st2,
      evalStatement R (R.NewEnv env "if {}" st).1 i (R.NewEnv env "if {}" st).2
        = (.returned r, st0) →
      R.Eval (R.NewEnv env "if {}" st).1 cond st0 = (.returned (.bool true, vs), st1) →
      evalBlock R (R.NewEnv env "if {}" st).1 body st1 = (.panicked p, st2) →
      evalIf R env (.mk (some i) cond body els) st = (.panicked p, st2)) ∧
    (∀ i cond body e r st0 vs st1 st2,
      evalStatement R (R.NewEnv env "if {}" st).1 i (R.NewEnv env "if {}" st).2
        = (.returned r, st0) →
      R.Eval (R.NewEnv env "if {}" st).1 cond st0 = (.returned (.bool false, vs), st1) →
      evalStatement R (R.NewEnv env "if {}" st).1 e st1 = (.panicked p, st2) →
      evalIf R env (.mk (some i) cond body (some e)) st = (.panicked p, st2)) := by
  refine ⟨?_, ?_, ?_, ?_, ?_, ?_, ?_⟩
  · intro pre s post rs st1 st2 h hs
    rw [evalStatements]
    exact evalStatementsFrom_panicked R env s post p pre _ st rs st1 st2 h hs
  · intro pre s post rs st1 st2 h hs
    have hcons : ∃ s0 list, pre ++ s :: post = s0 :: list := by
      cases pre with
      | nil => exact ⟨s, post, rfl⟩
      | cons s0 pre => exact ⟨s0, pre ++ s :: post, rfl⟩
    obtain ⟨s0, list, hl⟩ := hcons
    rw [hl, evalBlock, ← hl]
    simp only [evalStatements]
    exact evalStatementsFrom_panicked R _ s post p pre _ _ rs st1 st2 h hs
  · intro cond body els vs st1 st2 h hb
    rw [evalIf_none, evalIfRest_of_cond R env cond body els st st1 _ vs h]
    simpa [Value.Kind, Value.Bool, Exec.lift, Exec.bind] using hb
  · intro cond body e vs st1 st2 h hb
    rw [evalIf_none, evalIfRest_of_cond R env cond body (some e) st st1 _ vs h]
    simpa [Value.Kind, Value.Bool, Exec.lift, Exec.bind] using hb
  · intro i cond body els st0 hi
    rw [evalIf_some]
    simp only [Exec.bind, hi]
  · intro i cond body els r st0 vs st1 st2 hi h hb
    rw [evalIf_some]
    simp only [Exec.bind, hi]
    rw [evalIfRest_of_cond R _ cond body els st0 st1 _ vs h]
    simpa [Value.Kind, Value.Bool, Exec.lift, Exec.bind] using hb
  · intro i cond body e r st0 vs st1 st2 hi h hb
    rw [evalIf_some]
    simp only [Exec.bind, hi]
    rw [evalIfRest_of_cond R _ cond body (some e) st0 st1 _ vs h]
    simpa [Value.Kind, Value.Bool, Exec.lift, Exec.bind] using hb

/-- C16, in the recording runtime: in the list `a; break outer; b` and in the
block made of it, `a` is evaluated, `break outer` raises `eBreak{outer}`, and
`b` is not evaluated; `if true { return f() } else b` raises the `eReturn` of
its body. -/
theorem signals_propagate_witness :
    evalStatements Recording.runtime []
        [.ExprStmt ⟨"a"⟩, .BranchStmt ⟨.BREAK, some ⟨"outer"⟩⟩, .ExprStmt ⟨"b"⟩] []
      = (.panicked (.eBreak "outer"), ["evalExpr a"]) ∧
    evalBlock Recording.runtime []
        (some (.mk [.ExprStmt ⟨"a"⟩, .BranchStmt ⟨.BREAK, some ⟨"outer"⟩⟩, .ExprStmt ⟨"b"⟩])) []
      = (.panicked (.eBreak "outer"), ["NewEnv {}", "evalExpr a"]) ∧
    evalIf Recording.runtime []
        (.mk none ⟨"true"⟩ (some (.mk [.ReturnStmt ⟨[⟨"f()"⟩]⟩])) (some (.ExprStmt ⟨"b"⟩))) []
      = (.panicked (.eReturn [.int 1, .int 2]), ["Eval true", "NewEnv {}", "evalExpr f()"]) := by
  refine ⟨?_, ?_, ?_⟩
  · exact (signals_propagate Recording.runtime [] [] (.eBreak "outer")).1
      [.ExprStmt ⟨"a"⟩] (.BranchStmt ⟨.BREAK, some ⟨"outer"⟩⟩) [.ExprStmt ⟨"b"⟩]
      [(.string "a", [])] ["evalExpr a"] ["evalExpr a"]
      (by simp [runEach, evalStatement, Recording.runtime, Recording.call, Recording.value])
      (by simp [evalStatement, evalBranch, Exec.panic])
  · exact (signals_propagate Recording.runtime [] [] (.eBreak "outer")).2.1
      [.ExprStmt ⟨"a"⟩] (.BranchStmt ⟨.BREAK, some ⟨"outer"⟩⟩) [.ExprStmt ⟨"b"⟩]
      [(.string "a", [])] ["NewEnv {}", "evalExpr a"] ["NewEnv {}", "evalExpr a"]
      (by simp [runEach, evalStatement, Recording.runtime, Recording.call, Recording.value])
      (by simp [evalStatement, evalBranch, Exec.panic, Recording.runtime])
  · exact (signals_propagate Recording.runtime [] [] (.eReturn [.int 1, .int 2])).2.2.1
      ⟨"true"⟩ _ _ [] ["Eval true"] ["Eval true", "NewEnv {}", "evalExpr f()"]
      (by decide)
      (by simp [evalBlock, evalStatements, evalStatementsFrom, evalStatement, evalReturn,
        Exec.bind, Exec.panic, Recording.runtime, Recording.call])

/-- C18. The three outcomes of `Env.evalIf` on a bool condition. Without an
init statement the condition is evaluated in the caller's `Env` and state;
with one, in the child `Env` named `if {}`, in the state the init statement
left. From the one state `st1` that evaluation leaves, a true condition gives
`evalBlock` of the body, a false one with an else gives `evalStatement` of the
else, and a false one without an else returns `(Nil, nil)` leaving `st1`
untouched. -/
theorem evalIf_branches (env : Env) (cond : AstExpr) (body : Option BlockStmt) (st : σ) :
    (∀ els vs st1, R.Eval env cond st = (.returned (.bool true, vs), st1) →
      evalIf R env (.mk none cond body els) st = evalBlock R env body st1) ∧
    (∀ e vs st1, R.Eval env cond st = (.returned (.bool false, vs), st1) →
      evalIf R env (.mk none cond body (some e)) st = evalStatement R env e st1) ∧
    (∀ vs st1, R.Eval env cond st = (.returned (.bool false, vs), st1) →
      evalIf R env (.mk none cond body none) st = (.returned (R.Nil, []), st1)) ∧
    (∀ i els r st0 vs st1,
      evalStatement R (R.NewEnv env "if {}" st).1 i (R.NewEnv env "if {}" st).2
        = (.returned r, st0) →
      R.Eval (R.NewEnv env "if {}" st).1 cond st0 = (.returned (.bool true, vs), st1) →
      evalIf R env (.mk (some i) cond body els) st
        = evalBlock R (R.NewEnv env "if {}" st).1 body st1) ∧
    (∀ i e r st0 vs st1,
      evalStatement R (R.NewEnv env "if {}" st).1 i (R.NewEnv env "if {}" st).2
        = (.returned r, st0) →
      R.Eval (R.NewEnv env "if {}" st).1 cond st0 = (.returned (.bool false, vs), st1) →
      evalIf R env (.mk (some i) cond body (some e)) st
        = evalStatement R (R.NewEnv env "if {}" st).1 e st1) ∧
    (∀ i r st0 vs st1,
      evalStatement R (R.NewEnv env "if {}" st).1 i (R.NewEnv env "if {}" st).2
        = (.returned r, st0) →
      R.Eval (R.NewEnv env "if {}" st).1 cond st0 = (.returned (.bool false, vs), st1) →
      evalIf R env (.mk (some i) cond body none) st = (.returned (R.Nil, []), st1)) := by
  refine ⟨?_, ?_, ?_, ?_, ?_, ?_⟩
  · intro els vs st1 h
    rw [evalIf_none, evalIfRest_of_cond R env cond body els st st1 _ vs h]
    simp [Value.Kind, Value.Bool, Exec.lift, Exec.bind]
  · intro e vs st1 h
    rw [evalIf_none, evalIfRest_of_cond R env cond body (some e) st st1 _ vs h]
    simp [Value.Kind, Value.Bool, Exec.lift, Exec.bind]
  · intro vs st1 h
    rw [evalIf_none, evalIfRest_of_cond R env cond body none st st1 _ vs h]
    simp [Value.Kind, Value.Bool, Exec.lift, Exec.bind, Exec.ret]
  · intro i els r st0 vs st1 hi h
    rw [evalIf_some]
    simp only [Exec.bind, hi]
    rw [evalIfRest_of_cond R _ cond body els st0 st1 _ vs h]
    simp [Value.Kind, Value.Bool, Exec.lift, Exec.bind]
  · intro i e r st0 vs st1 hi h
    rw [evalIf_some]
    simp only [Exec.bind, hi]
    rw [evalIfRest_of_cond R _ cond body (some e) st0 st1 _ vs h]
    simp [Value.Kind, Value.Bool, Exec.lift, Exec.bind]
  · intro i r st0 vs st1 hi h
    rw [evalIf_some]
    simp only [Exec.bind, hi]
    rw [evalIfRest_of_cond R _ cond body none st0 st1 _ vs h]
    simp [Value.Kind, Value.Bool, Exec.lift, Exec.bind, Exec.ret]

/-- C18, in the recording runtime: `if true {a} else b` evaluates the
condition once and then the block `a` only; `if false {a} else b` the
condition and `b` only; `if false {a}` the condition only, and returns
`(Nil, nil)`; `if i; true {a}` evaluates `i` before the condition. -/
theorem evalIf_branches_witness :
    evalIf Recording.runtime []
        (.mk none ⟨"true"⟩ (some (.mk [.ExprStmt ⟨"a"⟩])) (some (.ExprStmt ⟨"b"⟩))) []
      = (.returned (.string "a", []), ["Eval true", "NewEnv {}", "evalExpr a"]) ∧
    evalIf Recording.runtime []
        (.mk none ⟨"false"⟩ (some (.mk [.ExprStmt ⟨"a"⟩])) (some (.ExprStmt ⟨"b"⟩))) []
      = (.returned (.string "b", []), ["Eval false", "evalExpr b"]) ∧
    evalIf Recording.runtime [] (.mk none ⟨"false"⟩ (some (.mk [.ExprStmt ⟨"a"⟩])) none) []
      = (.returned (.zero, []), ["Eval false"]) ∧
    evalIf Recording.runtime []
        (.mk (some (.ExprStmt ⟨"i"⟩)) ⟨"true"⟩ (some (.mk [.ExprStmt ⟨"a"⟩])) none) []
      = (.returned (.string "a", []),
          ["NewEnv if {}", "evalExpr i", "Eval true", "NewEnv {}", "evalExpr a"]) := by
  refine ⟨?_, ?_, ?_, ?_⟩
  · rw [(evalIf_branches Recording.runtime [] ⟨"true"⟩ (some (.mk [.ExprStmt ⟨"a"⟩])) []).1
      (some (.ExprStmt ⟨"b"⟩)) [] ["Eval true"] (by decide)]
    simp [evalBlock, evalStatements, evalStatementsFrom, evalStatement, Exec.bind, Exec.ret,
      Recording.runtime, Recording.call, Recording.value]
  · rw [(evalIf_branches Recording.runtime [] ⟨"false"⟩ (some (.mk [.ExprStmt ⟨"a"⟩])) []).2.1
      (.ExprStmt ⟨"b"⟩) [] ["Eval false"] (by decide)]
    simp [evalStatement, Recording.runtime, Recording.call, Recording.value]
  · exact (evalIf_branches Recording.runtime [] ⟨"false"⟩ (some (.mk [.ExprStmt ⟨"a"⟩]))
      []).2.2.1 [] ["Eval false"] (by decide)
  · rw [(evalIf_branches Recording.runtime [] ⟨"true"⟩ (some (.mk [.ExprStmt ⟨"a"⟩]))
      []).2.2.2.1 (.ExprStmt ⟨"i"⟩) none (.string "i", []) ["NewEnv if {}", "evalExpr i"] []
      ["NewEnv if {}", "evalExpr i", "Eval true"]
      (by simp [evalStatement, Recording.runtime, Recording.call, Recording.value])
      (by decide)]
    simp [evalBlock, evalStatements, evalStatementsFrom, evalStatement, Exec.bind, Exec.ret,
      Recording.runtime, Recording.call, Recording.value]

/-- C20. The empty-block shortcut of `Env.evalBlock`. On a block with
statements `evalBlock` is `evalStatements` of the list in the child `Env`
named `{}`; on a block without statements it returns the pair
`evalStatements` of the empty list returns in that child, `(None, nil)`,
without creating the child; on the nil block it returns `(None, nil)` and
leaves the state untouched. -/
theorem evalBlock_agrees (env : Env) (st : σ) :
    (∀ list : List Stmt,
      (evalBlock R env (some (.mk list)) st).1
        = (evalStatements R (R.NewEnv env "{}" st).1 list (R.NewEnv env "{}" st).2).1) ∧
    (∀ (s : Stmt) (list : List Stmt),
      evalBlock R env (some (.mk (s :: list))) st
        = evalStatements R (R.NewEnv env "{}" st).1 (s :: list) (R.NewEnv env "{}" st).2) ∧
    evalBlock R env (some (.mk [])) st = (.returned (R.None, []), st) ∧
    (evalStatements R (R.NewEnv env "{}" st).1 [] (R.NewEnv env "{}" st).2).1
      = .returned (R.None, []) ∧
    evalBlock R env none st = (.returned (R.None, []), st) := by
  refine ⟨?_, ?_, ?_, ?_, ?_⟩
  · intro list
    cases list with
    | nil => simp [evalBlock, evalStatements, evalStatementsFrom, Exec.ret]
    | cons s list => rw [evalBlock]
  · intro s list
    rw [evalBlock]
  · simp [evalBlock, Exec.ret]
  · simp [evalStatements, evalStatementsFrom, Exec.ret]
  · simp [evalBlock, Exec.ret]

end ExecutorTheorems

/-! ## Theorems: the scope law -/

theorem Scopes.keepsBut_refl (env : Nat) (st : Scopes) : Scopes.keepsBut env st st :=
  ⟨Nat.le_refl _, fun _ _ _ => rfl⟩

theorem Scopes.keepsBut_trans {env : Nat} {st st1 st2 : Scopes}
    (h1 : Scopes.keepsBut env st st1) (h2 : Scopes.keepsBut env st1 st2) :
    Scopes.keepsBut env st st2 :=
  ⟨Nat.le_trans h1.1 h2.1, fun e he hne =>
    (h2.2 e (Nat.lt_of_lt_of_le he h1.1) hne).trans (h1.2 e he hne)⟩

theorem Scopes.keeps_keepsBut {env : Nat} {st st1 : Scopes} (h : Scopes.keeps st st1) :
    Scopes.keepsBut env st st1 :=
  ⟨h.1, fun e he _ => h.2 e he⟩

theorem Scopes.keepsBut_of_eq {env : Nat} {st st1 : Scopes} (h : st1 = st) :
    Scopes.keepsBut env st st1 := h ▸ Scopes.keepsBut_refl env st

/-- A declaration changes the environment it is evaluated in and no other. -/
theorem Scopes.keepsBut_declare (env : Nat) (x : String) (v : Value) (st : Scopes) :
    Scopes.keepsBut env st (st.declare env x v) := by
  unfold Scopes.declare
  cases h : st[env]? with
  | none => exact Scopes.keepsBut_refl env st
  | some sc =>
    refine ⟨by simp, fun e _ hne => ?_⟩
    simp [List.getElem?_set_ne (Ne.symm hne)]

/-- What runs in a new child environment and changes no other environment
changes none of the environments there were before the child. -/
theorem Scopes.keeps_of_child {outer : Nat} {name : String} {st st2 : Scopes}
    (h : Scopes.keepsBut (Scopes.NewEnv outer name st).1 (Scopes.NewEnv outer name st).2 st2) :
    Scopes.keeps st st2 := by
  obtain ⟨hlen, hk⟩ := h
  simp only [Scopes.NewEnv, List.length_append, List.length_singleton] at hlen hk
  refine ⟨by omega, fun e he => ?_⟩
  rw [hk e (by omega) (by omega)]
  exact List.getElem?_append_left he

/-- The state after a sequence, when both parts keep the environments. -/
theorem Exec.bind_keepsBut {α β : Type} {env : Nat} (m : Exec Scopes α)
    (f : α → Exec Scopes β) (st : Scopes)
    (hm : Scopes.keepsBut env st (m st).2)
    (hf : ∀ a st1, Scopes.keepsBut env st st1 → Scopes.keepsBut env st (f a st1).2) :
    Scopes.keepsBut env st (m.bind f st).2 := by
  unfold Exec.bind
  rcases h : m st with ⟨o, st1⟩
  rw [h] at hm
  cases o with
  | returned a => exact hf a st1 hm
  | panicked p => exact hm

theorem Scoped.eval_state (env : Nat) (e : AstExpr) (st : Scopes) :
    (Scoped.eval env e st).2 = st := by
  unfold Scoped.eval
  split
  · rfl
  · split
    · rfl
    · split <;> rfl

theorem Scoped.evalExprs_state (env : Nat) (es : List AstExpr) :
    ∀ st : Scopes, (evalExprs Scoped.runtime env es st).2 = st := by
  induction es with
  | nil => intro st; rfl
  | cons e es ih =>
    intro st
    have h1 := Scoped.eval_state env e st
    simp only [evalExprs, Exec.bind, Scoped.runtime]
    rcases h : Scoped.eval env e st with ⟨o, st1⟩
    rw [h] at h1
    simp only at h1
    subst h1
    cases o with
    | panicked p => rfl
    | returned v =>
      have h2 := ih st1
      simp only [Scoped.runtime] at h2
      simp only
      rcases h3 : evalExprs Scoped.runtime env es st1 with ⟨o2, st2⟩
      simp only [Scoped.runtime] at h3
      rw [h3] at h2 ⊢
      simp only at h2
      subst h2
      cases o2 <;> rfl

/-- A sequence of two calls that leave the state as it is leaves it as it is. -/
theorem Exec.bind_state {σ α β : Type} (m : Exec σ α) (f : α → Exec σ β) (st : σ)
    (hm : (m st).2 = st) (hf : ∀ a, (f a st).2 = st) : (m.bind f st).2 = st := by
  unfold Exec.bind
  rcases h : m st with ⟨o, st1⟩
  rw [h] at hm
  simp only at hm
  subst hm
  cases o with
  | returned a => exact hf a
  | panicked p => rfl

theorem Scoped.evalBranch_state (env : Nat) (node : BranchStmt) (st : Scopes) :
    (evalBranch Scoped.runtime env node st).2 = st := by
  obtain ⟨tok, label⟩ := node
  cases tok <;> rfl

theorem Scoped.evalIncDec_state (env : Nat) (node : IncDecStmt) (st : Scopes) :
    (evalIncDec Scoped.runtime env node st).2 = st := by
  obtain ⟨x, tok⟩ := node
  cases tok <;> rfl

theorem Scoped.evalSend_state (env : Nat) (node : SendStmt) (st : Scopes) :
    (evalSend Scoped.runtime env node st).2 = st := by
  unfold evalSend
  refine Exec.bind_state _ _ st (Scoped.eval_state env node.Chan st) fun c => ?_
  split
  · rfl
  · exact Exec.bind_state _ _ st (Scoped.eval_state env node.Value st) fun _ => rfl

theorem Scoped.evalReturn_state (env : Nat) (node : ReturnStmt) (st : Scopes) :
    (evalReturn Scoped.runtime env node st).2 = st := by
  obtain ⟨results⟩ := node
  match results with
  | [] => rfl
  | [e] =>
    simp only [evalReturn]
    exact Exec.bind_state _ _ st
      (Exec.bind_state _ _ st (Scoped.eval_state env e st) fun _ => rfl) fun _ => rfl
  | e1 :: e2 :: es =>
    simp only [evalReturn]
    exact Exec.bind_state _ _ st (Scoped.evalExprs_state env _ st) fun _ => rfl

theorem Scoped.Eval_state (env : Nat) (e : AstExpr) (st : Scopes) :
    (Scoped.runtime.Eval env e st).2 = st :=
  Exec.bind_state _ _ st (Scoped.eval_state env e st) fun _ => rfl

/-- The part of an if statement after its init statement changes no environment
other than the one it runs in, when its branches do not. -/
theorem Scoped.keepsBut_evalIfRest (env : Nat) (cond : AstExpr) (body : Option BlockStmt)
    (els : Option Stmt)
    (hbody : ∀ st, Scopes.keeps st (evalBlock Scoped.runtime env body st).2)
    (hels : ∀ e, els = some e → ∀ st,
      Scopes.keepsBut env st (evalStatement Scoped.runtime env e st).2)
    (st : Scopes) :
    Scopes.keepsBut env st (evalIfRest Scoped.runtime env cond body els st).2 := by
  unfold evalIfRest
  refine Exec.bind_keepsBut _ _ st (Scopes.keepsBut_of_eq (Scoped.Eval_state env cond st))
    fun c st1 h1 => Scopes.keepsBut_trans h1 ?_
  split
  · exact Scopes.keepsBut_of_eq (Exec.bind_state _ _ st1 rfl fun _ => rfl)
  · refine Exec.bind_keepsBut _ _ st1 (Scopes.keepsBut_refl _ _) fun b st2 h2 =>
      Scopes.keepsBut_trans h2 ?_
    split
    · exact Scopes.keeps_keepsBut (hbody st2)
    · cases els with
      | none => exact Scopes.keepsBut_refl _ _
      | some e => exact hels e rfl st2

mutual
/-- A statement evaluated in `env` changes no environment other than `env`. -/
theorem Scoped.keepsBut_evalStatement : ∀ (s : Stmt) (env : Nat) (st : Scopes),
    Scopes.keepsBut env st (evalStatement Scoped.runtime env s st).2
  | .AssignStmt _ _ _, env, st => by rw [evalStatement]; exact Scopes.keepsBut_refl _ _
  | .BlockStmt node, env, st => by
    rw [evalStatement]; exact Scopes.keeps_keepsBut (Scoped.keeps_evalBlock (some node) env st)
  | .BranchStmt node, env, st => by
    rw [evalStatement]; exact Scopes.keepsBut_of_eq (Scoped.evalBranch_state env node st)
  | .CaseClause _ _, env, st => by rw [evalStatement]; exact Scopes.keepsBut_refl _ _
  | .CommClause _ _, env, st => by rw [evalStatement]; exact Scopes.keepsBut_refl _ _
  | .DeclStmt decl, env, st => by
    rw [evalStatement]; exact Scopes.keepsBut_declare env decl.src (.int 0) st
  | .DeferStmt _, env, st => by rw [evalStatement]; exact Scopes.keepsBut_refl _ _
  | .ExprStmt x, env, st => by
    rw [evalStatement]; exact Scopes.keepsBut_of_eq (Scoped.Eval_state env x st)
  | .ForStmt _ _ _ _, env, st => by rw [evalStatement]; exact Scopes.keepsBut_refl _ _
  | .IfStmt node, env, st => by rw [evalStatement]; exact Scoped.keepsBut_evalIf node env st
  | .IncDecStmt node, env, st => by
    rw [evalStatement]; exact Scopes.keepsBut_of_eq (Scoped.evalIncDec_state env node st)
  | .EmptyStmt, env, st => by rw [evalStatement]; exact Scopes.keepsBut_refl _ _
  | .RangeStmt _ _ _ _ _, env, st => by rw [evalStatement]; exact Scopes.keepsBut_refl _ _
  | .ReturnStmt node, env, st => by
    rw [evalStatement]; exact Scopes.keepsBut_of_eq (Scoped.evalReturn_state env node st)
  | .SelectStmt _, env, st => by rw [evalStatement]; exact Scopes.keepsBut_refl _ _
  | .SendStmt node, env, st => by
    rw [evalStatement]; exact Scopes.keepsBut_of_eq (Scoped.evalSend_state env node st)
  | .SwitchStmt _ _ _, env, st => by rw [evalStatement]; exact Scopes.keepsBut_refl _ _
  | .TypeSwitchStmt _ _ _, env, st => by rw [evalStatement]; exact Scopes.keepsBut_refl _ _
  | .GoStmt _, env, st => by rw [evalStatement]; exact Scopes.keepsBut_refl _ _
  | .LabeledStmt _ _, env, st => by rw [evalStatement]; exact Scopes.keepsBut_refl _ _
  | .BadStmt, env, st => by rw [evalStatement]; exact Scopes.keepsBut_refl _ _

/-- The loop over a statement list in `env` changes no environment other than
`env`. -/
theorem Scoped.keepsBut_evalStatementsFrom : ∀ (list : List Stmt) (env : Nat) (rets : Results)
    (st : Scopes), Scopes.keepsBut env st (evalStatementsFrom Scoped.runtime env rets list st).2
  | [], env, rets, st => by rw [evalStatementsFrom]; exact Scopes.keepsBut_refl _ _
  | s :: list, env, rets, st => by
    rw [evalStatementsFrom]
    exact Exec.bind_keepsBut _ _ st (Scoped.keepsBut_evalStatement s env st) fun r st1 h1 =>
      Scopes.keepsBut_trans h1 (Scoped.keepsBut_evalStatementsFrom list env r st1)

/-- A block changes none of the environments there are when it is entered. -/
theorem Scoped.keeps_evalBlock : ∀ (block : Option BlockStmt) (env : Nat) (st : Scopes),
    Scopes.keeps st (evalBlock Scoped.runtime env block st).2
  | none, env, st => by rw [evalBlock]; exact ⟨Nat.le_refl _, fun _ _ => rfl⟩
  | some (.mk []), env, st => by rw [evalBlock]; exact ⟨Nat.le_refl _, fun _ _ => rfl⟩
  | some (.mk (s :: list)), env, st => by
    rw [evalBlock]
    simp only [evalStatements]
    exact Scopes.keeps_of_child
      (Scoped.keepsBut_evalStatementsFrom (s :: list) (Scopes.NewEnv env "{}" st).1
        (Scoped.runtime.None, []) (Scopes.NewEnv env "{}" st).2)

/-- An if statement evaluated in `env` changes no environment other than `env`. -/
theorem Scoped.keepsBut_evalIf : ∀ (node : IfStmt) (env : Nat) (st : Scopes),
    Scopes.keepsBut env st (evalIf Scoped.runtime env node st).2
  | .mk none cond body none, env, st => by
    rw [evalIf_none]
    exact Scoped.keepsBut_evalIfRest env cond body none
      (fun st => Scoped.keeps_evalBlock body env st) (fun _ he => nomatch he) st
  | .mk none cond body (some e), env, st => by
    rw [evalIf_none]
    exact Scoped.keepsBut_evalIfRest env cond body (some e)
      (fun st => Scoped.keeps_evalBlock body env st)
      (fun e1 he st => by cases he; exact Scoped.keepsBut_evalStatement e env st) st
  | .mk (some i) cond body none, env, st => by
    rw [evalIf_some]
    refine Scopes.keeps_keepsBut (@Scopes.keeps_of_child env "if {}" _ _ ?_)
    exact Exec.bind_keepsBut _ _ _ (Scoped.keepsBut_evalStatement i _ _) fun _ st1 h1 =>
      Scopes.keepsBut_trans h1 (Scoped.keepsBut_evalIfRest _ cond body none
        (fun st => Scoped.keeps_evalBlock body _ st) (fun _ he => nomatch he) st1)
  | .mk (some i) cond body (some e), env, st => by
    rw [evalIf_some]
    refine Scopes.keeps_keepsBut (@Scopes.keeps_of_child env "if {}" _ _ ?_)
    exact Exec.bind_keepsBut _ _ _ (Scoped.keepsBut_evalStatement i _ _) fun _ st1 h1 =>
      Scopes.keepsBut_trans h1 (Scoped.keepsBut_evalIfRest _ cond body (some e)
        (fun st => Scoped.keeps_evalBlock body _ st)
        (fun e1 he st => by cases he; exact Scoped.keepsBut_evalStatement e _ st) st1)
end

/-- In a well-formed state every outer link leads to an earlier environment. -/
theorem Scopes.outer_lt {st : Scopes} (hwf : st.wellFormed = true) {i : Nat} {sc : Scope}
    (hi : st[i]? = some sc) {outer : Nat} (ho : sc.Outer = some outer) : outer < i := by
  have hlt : i < st.length := by
    rcases Nat.lt_or_ge i st.length with h | h
    · exact h
    · rw [List.getElem?_eq_none h] at hi
      cases hi
  unfold Scopes.wellFormed at hwf
  rw [List.all_eq_true] at hwf
  have := hwf i (List.mem_range.mpr hlt)
  rw [hi] at this
  simp only [ho, decide_eq_true_eq] at this
  exact this

/-- Lookup from an environment that was there goes through environments that
were there: it finds the same in a state that keeps them. -/
theorem Scopes.lookup_keeps {st st1 : Scopes} (hwf : st.wellFormed = true)
    (hk : Scopes.keeps st st1) (x : String) :
    ∀ (fuel env : Nat), env < st.length → st1.lookup fuel env x = st.lookup fuel env x := by
  intro fuel
  induction fuel with
  | zero => intro env _; rfl
  | succ fuel ih =>
    intro env henv
    have hsame := hk.2 env henv
    simp only [Scopes.lookup, hsame]
    cases hsc : st[env]? with
    | none => rfl
    | some sc =>
      simp only
      cases hb : sc.Binds.lookup x with
      | some v => rfl
      | none =>
        simp only
        cases ho : sc.Outer with
        | none => rfl
        | some outer =>
          simp only
          exact ih outer (Nat.lt_trans (Scopes.outer_lt hwf hsc ho) henv)

/-- What is visible from an environment that was there is the same in a state
that keeps the environments. -/
theorem Scopes.visible_keeps {st st1 : Scopes} (hwf : st.wellFormed = true)
    (hk : Scopes.keeps st st1) (env : Nat) (henv : env < st.length) (x : String) :
    st1.visible env x = st.visible env x :=
  Scopes.lookup_keeps hwf hk x (env + 1) env henv


section ScopeLaw

variable {Env σ : Type} (R : Runtime Env σ)

/-- C12. Scope law. `Env.evalBlock` on a block with statements evaluates them in
the environment `NewEnv(env, "{}")`, and `Env.evalIf` with an init statement
evaluates the init statement, the condition and the branch in the environment
`NewEnv(env, "if {}")`, where `env` is the environment they were called on. In
the model of environments of the spec such an environment is a new one whose
outer link is `env`, a declaration binds its identifier there, and so, for
every block and every if statement with an init statement, evaluated in an
environment `e` of a well-formed state: every identifier denotes in `e`,
afterwards, what it denoted before, a value or nothing, whatever was declared
inside. -/
theorem scope_law (env : Env) (st : σ) :
    (∀ s list, evalBlock R env (some (.mk (s :: list))) st
      = evalStatements R (R.NewEnv env "{}" st).1 (s :: list) (R.NewEnv env "{}" st).2) ∧
    (∀ i cond body els, evalIf R env (.mk (some i) cond body els) st
      = ((evalStatement R (R.NewEnv env "if {}" st).1 i).bind fun _ =>
          evalIfRest R (R.NewEnv env "if {}" st).1 cond body els)
        (R.NewEnv env "if {}" st).2) ∧
    (∀ (sc : Scopes) (outer : Nat) (name : String),
      (Scopes.NewEnv outer name sc).1 = sc.length ∧
      (Scopes.NewEnv outer name sc).2[sc.length]?
        = some { Name := name, Outer := some outer, Binds := [] } ∧
      Scopes.keeps sc (Scopes.NewEnv outer name sc).2) ∧
    (∀ (sc : Scopes) (e : Nat) (x : String) (v : Value), e < sc.length →
      (sc.declare e x v).visible e x = some v) ∧
    (∀ (sc : Scopes) (e : Nat), sc.wellFormed = true → e < sc.length →
      (∀ block x, (evalBlock Scoped.runtime e block sc).2.visible e x = sc.visible e x) ∧
      (∀ i cond body els x,
        (evalIf Scoped.runtime e (.mk (some i) cond body els) sc).2.visible e x
          = sc.visible e x)) := by
  refine ⟨fun s list => ?_, fun i cond body els => evalIf_some R env i cond body els st,
    fun sc outer name => ⟨rfl, ?_, ?_, ?_⟩, ?_, ?_⟩
  · rw [evalBlock]
  · simp [Scopes.NewEnv]
  · simp [Scopes.NewEnv]
  · intro e he
    simp only [Scopes.NewEnv]
    exact List.getElem?_append_left he
  · intro sc e x v he
    have hsome : sc[e]? = some sc[e] := List.getElem?_eq_getElem he
    simp only [Scopes.visible, Scopes.lookup, Scopes.declare, hsome]
    rw [List.getElem?_set_self he]
    simp [List.lookup]
  · intro sc e hwf he
    refine ⟨fun block x => Scopes.visible_keeps hwf (Scoped.keeps_evalBlock block e sc) e he x,
      fun i cond body els x => Scopes.visible_keeps hwf ?_ e he x⟩
    rw [evalIf_some]
    exact @Scopes.keeps_of_child e "if {}" _ _
      (Exec.bind_keepsBut _ _ _ (Scoped.keepsBut_evalStatement i _ _) fun _ st1 h1 =>
        Scopes.keepsBut_trans h1 (Scoped.keepsBut_evalIfRest _ cond body els
          (fun st => Scoped.keeps_evalBlock body _ st)
          (fun e1 _ st => Scoped.keepsBut_evalStatement e1 _ st) st1))

end ScopeLaw

/-- C12, in the program scope where `x` is 42. The block `{ var x; x }` yields
the inner `x`, which is 0, and afterwards `x` is 42 in the program scope; the
block `{ var y; y }` and the statement `if var y; true { y }` yield the `y`
they declare, and afterwards `y` is not visible in the program scope. -/
theorem scope_law_witness :
    Scopes.global.visible 0 "x" = some (.int 42) ∧ Scopes.global.visible 0 "y" = none ∧
    (evalBlock Scoped.runtime 0 (some (.mk [.DeclStmt ⟨"x"⟩, .ExprStmt ⟨"x"⟩]))
      Scopes.global).1 = .returned (.int 0, []) ∧
    (evalBlock Scoped.runtime 0 (some (.mk [.DeclStmt ⟨"x"⟩, .ExprStmt ⟨"x"⟩]))
      Scopes.global).2.visible 0 "x" = some (.int 42) ∧
    (evalBlock Scoped.runtime 0 (some (.mk [.DeclStmt ⟨"y"⟩, .ExprStmt ⟨"y"⟩]))
      Scopes.global).1 = .returned (.int 0, []) ∧
    (evalBlock Scoped.runtime 0 (some (.mk [.DeclStmt ⟨"y"⟩, .ExprStmt ⟨"y"⟩]))
      Scopes.global).2.visible 0 "y" = none ∧
    (evalIf Scoped.runtime 0
      (.mk (some (.DeclStmt ⟨"y"⟩)) ⟨"true"⟩ (some (.mk [.ExprStmt ⟨"y"⟩])) none)
      Scopes.global).1 = .returned (.int 0, []) ∧
    (evalIf Scoped.runtime 0
      (.mk (some (.DeclStmt ⟨"y"⟩)) ⟨"true"⟩ (some (.mk [.ExprStmt ⟨"y"⟩])) none)
      Scopes.global).2.visible 0 "y" = none := by
  have h := (scope_law Scoped.runtime 0 Scopes.global).2.2.2.2 Scopes.global 0 (by decide)
    (by decide)
  have hx : Scopes.global.visible 0 "x" = some (.int 42) := by decide
  have hy : Scopes.global.visible 0 "y" = none := by decide
  refine ⟨hx, hy, ?_, (h.1 _ "x").trans hx, ?_, (h.1 _ "y").trans hy, ?_,
    (h.2 _ _ _ _ "y").trans hy⟩
  · simp [evalStatements, evalStatementsFrom, evalStatement, evalBlock, Exec.bind, Exec.ret,
      Scoped.runtime, Scoped.eval, Scopes.visible, Scopes.lookup, Scopes.global,
      Scopes.NewEnv, Scopes.declare, List.lookup]
  · simp [evalStatements, evalStatementsFrom, evalStatement, evalBlock, Exec.bind, Exec.ret,
      Scoped.runtime, Scoped.eval, Scopes.visible, Scopes.lookup, Scopes.global,
      Scopes.NewEnv, Scopes.declare, List.lookup]
  · rw [evalIf_some]
    simp [evalIfRest, evalStatements, evalStatementsFrom, evalStatement, evalBlock, Exec.bind,
      Exec.ret, Exec.lift, Value.Kind, Value.Bool, Scoped.runtime, Scoped.eval, Scopes.visible,
      Scopes.lookup, Scopes.global, Scopes.NewEnv, Scopes.declare, List.lookup]

end Gomacro
